import Mathlib

/-!
Formal model of the ping algorithm engine in
`libparistraceroute/algorithms/ping.c`.

Modelling conventions:
* C `double` values are modelled as exact rationals (`ℚ`).
* `size_t` arithmetic is modelled on `ℕ` with explicit reduction modulo
  `2 ^ 64`; conversion of an unsigned value to C `int` is modelled with
  two's-complement wrap-around, as gcc/clang implement it.
* a field that `probe_extract` cannot extract is `none`; the handler's
  classifiers initialise their locals to `0` and ignore the return value of
  `probe_extract`, which is mirrored by `Option.getD 0`.
* a dereference of a NULL pointer is modelled by an explicit `crash` result.
-/

namespace Ping

/-- Width bound of `size_t` values. -/
def size_t_mod : ℕ := 2 ^ 64

/-- `++x` on a `size_t` variable. -/
def size_t_succ (n : ℕ) : ℕ := (n + 1) % size_t_mod

/-- `--x` on a `size_t` variable (wraps around at `0`). -/
def size_t_pred (n : ℕ) : ℕ := (n + (size_t_mod - 1)) % size_t_mod

/-- `x += k` on a `size_t` variable. -/
def size_t_add (a b : ℕ) : ℕ := (a + b) % size_t_mod

/-- Conversion of an unsigned 64-bit value to a C `int`
(two's-complement wrap-around). -/
def c_int_of_u64 (n : ℕ) : ℤ :=
  let m : ℕ := n % 2 ^ 32
  if m < 2 ^ 31 then (m : ℤ) else (m : ℤ) - 2 ^ 32

/-- `(int)` cast of a C `double`: truncation toward zero. -/
def c_trunc (q : ℚ) : ℤ := if 0 ≤ q then ⌊q⌋ else ⌈q⌉

/-! ## ICMP constants

Numeric values of the constants the source pulls from
`<netinet/ip_icmp.h>` and `<netinet/icmp6.h>`. -/

def ICMP_UNREACH : ℕ := 3
def ICMP_UNREACH_NET : ℕ := 0
def ICMP_UNREACH_HOST : ℕ := 1
def ICMP_UNREACH_PROTOCOL : ℕ := 2
def ICMP_UNREACH_PORT : ℕ := 3
def ICMP_TIMXCEED : ℕ := 11
def ICMP_TIMXCEED_INTRANS : ℕ := 0
def ICMP_TIMXCEED_REASS : ℕ := 1
def ICMP_REDIRECT : ℕ := 5
def ICMP_REDIRECT_NET : ℕ := 0
def ICMP_PARAMPROB : ℕ := 12
def ICMP6_DST_UNREACH : ℕ := 1
def ICMP6_DST_UNREACH_NOROUTE : ℕ := 0
def ICMP6_DST_UNREACH_ADDR : ℕ := 3
def ICMP6_DST_UNREACH_NOPORT : ℕ := 4
def ICMP6_PARAM_PROB : ℕ := 4
def ICMP6_PARAMPROB_HEADER : ℕ := 0
def ICMP6_PARAMPROB_NEXTHEADER : ℕ := 1
def ICMP6_PARAMPROB_OPTION : ℕ := 2
def ICMP6_TIME_EXCEEDED : ℕ := 3
def ICMP6_TIME_EXCEED_TRANSIT : ℕ := 0
def ICMP6_TIME_EXCEED_REASSEMBLY : ℕ := 1
def ND_REDIRECT : ℕ := 137

/-! ## Probe model -/

/-- Byte-wise network address (`address_t`); `address_compare(a, b) == 0`
is modelled by equality of the byte lists. -/
abbrev address_t := List ℕ

/-- The part of a generic probe (`probe_t`) that the ping engine reads or
writes.  The named fields `version`, `type`, `code` and `src_ip` are
extracted by `probe_extract`; `none` models a field that cannot be
extracted.  `ty` models the field the source calls `type` (a Lean
keyword). -/
structure probe_t where
  version : Option ℕ
  ty : Option ℕ
  code : Option ℕ
  src_ip : Option address_t
  delay : ℚ
  sending_time : ℚ
  recv_time : ℚ
deriving DecidableEq, Repr

/-- `probe_dup`: deep copy of a probe. -/
def probe_dup (p : probe_t) : probe_t := p

def probe_get_delay (p : probe_t) : ℚ := p.delay

def probe_set_delay (p : probe_t) (delay : ℚ) : probe_t := { p with delay := delay }

def probe_get_sending_time (p : probe_t) : ℚ := p.sending_time

def probe_get_recv_time (p : probe_t) : ℚ := p.recv_time

/-- Modelled from the spec: the framework's `DELAY_BEST_EFFORT` sentinel is
declared in `probe.h`, which is not among the sources; only its being
distinct from genuine (nonnegative) delays matters to the algorithm. -/
def DELAY_BEST_EFFORT : ℚ := -1

/-- A `(probe, reply)` pair (`probe_reply_t`) as delivered by a
`PROBE_REPLY` event. -/
structure probe_reply_t where
  probe : probe_t
  reply : probe_t
deriving DecidableEq, Repr

/-! ## ICMP classifiers (ping.c lines 159-286) -/

def destination_network_unreachable (reply : probe_t) : Bool :=
  let version := reply.version.getD 0
  let code := reply.code.getD 0
  let ty := reply.ty.getD 0
  if version = 4 then
    ty == ICMP_UNREACH && code == ICMP_UNREACH_HOST
  else
    ty == ICMP6_DST_UNREACH && code == ICMP6_DST_UNREACH_ADDR

def destination_host_unreachable (reply : probe_t) : Bool :=
  let version := reply.version.getD 0
  let code := reply.code.getD 0
  let ty := reply.ty.getD 0
  if version = 4 then
    ty == ICMP_UNREACH && code == ICMP_UNREACH_NET
  else
    ty == ICMP6_DST_UNREACH && code == ICMP6_DST_UNREACH_NOROUTE

def destination_port_unreachable (reply : probe_t) : Bool :=
  let version := reply.version.getD 0
  let code := reply.code.getD 0
  let ty := reply.ty.getD 0
  if version = 4 then
    ty == ICMP_UNREACH && code == ICMP_UNREACH_PORT
  else
    ty == ICMP6_DST_UNREACH && code == ICMP6_DST_UNREACH_NOPORT

def destination_protocol_unreachable (reply : probe_t) : Bool :=
  let version := reply.version.getD 0
  let code := reply.code.getD 0
  let ty := reply.ty.getD 0
  if version = 4 then
    ty == ICMP_UNREACH && code == ICMP_UNREACH_PROTOCOL
  else
    ty == ICMP6_PARAM_PROB && code == ICMP6_PARAMPROB_NEXTHEADER

def ttl_exceeded (reply : probe_t) : Bool :=
  let version := reply.version.getD 0
  let code := reply.code.getD 0
  let ty := reply.ty.getD 0
  if version = 4 then
    ty == ICMP_TIMXCEED && code == ICMP_TIMXCEED_INTRANS
  else
    ty == ICMP6_TIME_EXCEEDED && code == ICMP6_TIME_EXCEED_TRANSIT

def fragment_reassembly_time_exceeded (reply : probe_t) : Bool :=
  let version := reply.version.getD 0
  let code := reply.code.getD 0
  let ty := reply.ty.getD 0
  if version = 4 then
    ty == ICMP_TIMXCEED && code == ICMP_TIMXCEED_REASS
  else
    ty == ICMP6_TIME_EXCEEDED && code == ICMP6_TIME_EXCEED_REASSEMBLY

def redirect (reply : probe_t) : Bool :=
  let version := reply.version.getD 0
  let code := reply.code.getD 0
  let ty := reply.ty.getD 0
  if version = 4 then
    ty == ICMP_REDIRECT && code == ICMP_REDIRECT_NET
  else
    ty == ND_REDIRECT

def parameter_problem (reply : probe_t) : Bool :=
  let version := reply.version.getD 0
  let code := reply.code.getD 0
  let ty := reply.ty.getD 0
  if version = 4 then
    ty == ICMP_PARAMPROB
  else
    ty == ICMP6_PARAM_PROB && (code == ICMP6_PARAMPROB_HEADER || code == ICMP6_PARAMPROB_OPTION)

/-- `destination_reached`: extract the reply's `src_ip` and compare it
byte-wise with the configured destination; an unextractable source leaves
the initial `false`. -/
def destination_reached (dst_addr : address_t) (reply : probe_t) : Bool :=
  match reply.src_ip with
  | some discovered_addr => dst_addr == discovered_addr
  | none => false

/-! ## RTT statistics (ping.c lines 88-153) -/

/-- `compute_minimum`: the source reads element `0` unconditionally before
scanning; on an empty array that read is out of bounds, which the model
makes explicit with `none`. -/
def compute_minimum (array : List ℚ) : Option ℚ :=
  match array with
  | [] => none
  | first :: rest =>
      some (rest.foldl (fun current_min x => if x < current_min then x else current_min) first)

/-- `compute_maximum`: same unguarded element-`0` read as `compute_minimum`. -/
def compute_maximum (array : List ℚ) : Option ℚ :=
  match array with
  | [] => none
  | first :: rest =>
      some (rest.foldl (fun current_max x => if x > current_max then x else current_max) first)

/-- `compute_mean`: `Σxᵢ / n`.  On an empty array the source divides `0.0`
by zero; rational division by zero stands in for that division. -/
def compute_mean (array : List ℚ) : ℚ :=
  let array_length := array.length
  let sum := array.foldl (fun sum x => sum + x) 0
  sum / array_length

/-- `compute_mean_deviation` exactly as written in the source: each
deviation `xᵢ − mean` (a `double`) is passed to the C library function
`abs : int → int`, so it is truncated toward zero before the absolute
value is taken. -/
def compute_mean_deviation (array : List ℚ) : ℚ :=
  let array_length := array.length
  let mean := compute_mean array
  let sum := array.foldl (fun sum x => sum + ((c_trunc (x - mean)).natAbs : ℚ)) 0
  sum / array_length

/-- The specification's formula for the mean deviation:
`Σ|xᵢ − mean| / n` with the exact (real-valued) absolute value. -/
def mean_deviation_spec (array : List ℚ) : ℚ :=
  (array.foldl (fun sum x => sum + |x - compute_mean array|) 0) / array.length

/-- Result of `ping_dump_statistics`. -/
inductive dump_result
  /-- The `rtt_results == NULL` guard branch (prints an error). -/
  | stats_error : dump_result
  /-- The statistics actually printed. -/
  | report (max min : Option ℚ) (avg mdev : ℚ) (packet_loss : ℤ) : dump_result
deriving DecidableEq, Repr

/-- `ping_dump_statistics`: guards only against a NULL sample collection,
then computes all four statistics and the integer-truncated loss rate. -/
def ping_dump_statistics (num_replies num_losses : ℕ)
    (rtt_results : Option (List ℚ)) : dump_result :=
  match rtt_results with
  | none => .stats_error
  | some a =>
      .report (compute_maximum a) (compute_minimum a) (compute_mean a)
        (compute_mean_deviation a)
        (c_trunc ((num_losses : ℚ) / (num_replies : ℚ) * 100))

/-! ## Algorithm options and state -/

/-- `ping_options_t`: immutable per-instance configuration.  `count` is a C
`unsigned int`, hence `count < 2 ^ 32` for any value the type can hold. -/
structure ping_options_t where
  count : ℕ
  dst_addr : address_t
  interval : ℚ
  max_ttl : ℕ
  show_timestamp : Bool
  is_quiet : Bool
  do_resolv : Bool
deriving DecidableEq, Repr

/-- `ping_data_t`: mutable per-instance state.  The three counters are
`size_t` in the source. -/
structure ping_data_t where
  num_replies : ℕ
  num_losses : ℕ
  num_probes_in_flight : ℕ
  probes : List probe_t
  rtt_results : List ℚ
deriving DecidableEq, Repr

/-- `ping_data_create`: `calloc` yields all-zero counters and the two
dynarrays start empty (allocation failure is outside the model). -/
def ping_data_create : ping_data_t :=
  { num_replies := 0, num_losses := 0, num_probes_in_flight := 0
    probes := [], rtt_results := [] }

/-! ## Events -/

/-- The framework events `ping_loop_handler` switches on.  `OTHER_EVENT`
stands for any event type outside the five recognised ones. -/
inductive event_t
  | ALGORITHM_INIT : event_t
  | PROBE_REPLY (probe_reply : probe_reply_t) : event_t
  | PROBE_TIMEOUT : event_t
  | ALGORITHM_TERMINATED : event_t
  | ALGORITHM_ERROR : event_t
  | OTHER_EVENT (tag : ℕ) : event_t
deriving DecidableEq, Repr

/-- The outcome events (`ping_event_t`) the engine raises to its caller. -/
inductive ping_event_t
  | PING_PROBE_REPLY (pr : probe_reply_t) : ping_event_t
  | PING_DST_NET_UNREACHABLE (pr : probe_reply_t) : ping_event_t
  | PING_DST_HOST_UNREACHABLE (pr : probe_reply_t) : ping_event_t
  | PING_DST_PROT_UNREACHABLE (pr : probe_reply_t) : ping_event_t
  | PING_DST_PORT_UNREACHABLE (pr : probe_reply_t) : ping_event_t
  | PING_TTL_EXCEEDED_TRANSIT (pr : probe_reply_t) : ping_event_t
  | PING_TIME_EXCEEDED_REASSEMBLY (pr : probe_reply_t) : ping_event_t
  | PING_REDIRECT (pr : probe_reply_t) : ping_event_t
  | PING_PARAMETER_PROBLEM (pr : probe_reply_t) : ping_event_t
  | PING_GEN_ERROR (pr : probe_reply_t) : ping_event_t
  | PING_TIMEOUT : ping_event_t
  | PING_ALL_PROBES_SENT : ping_event_t
  | PING_WAIT : ping_event_t
deriving DecidableEq, Repr

/-- The observable calls the handler makes into the framework, in program
order. -/
inductive Action
  /-- `pt_raise_event` of an outcome event. -/
  | raise_event (e : ping_event_t) : Action
  /-- `pt_algorithm_throw` forwarding the input event to the caller. -/
  | throw_event : Action
  /-- `pt_send_probe` of a probe clone. -/
  | send_probe (p : probe_t) : Action
  /-- `pt_raise_terminated`. -/
  | raise_terminated : Action
  /-- `pt_raise_error`. -/
  | raise_error : Action
deriving DecidableEq, Repr

/-- Result of one `ping_loop_handler` invocation. -/
inductive StepResult
  /-- Normal exit (`return 0`) with the updated `*pdata` and the actions
  performed. -/
  | ok (pdata : Option ping_data_t) (actions : List Action) : StepResult
  /-- The `FAILURE` label: `pt_raise_error`, `return EINVAL`. -/
  | failure (actions : List Action) : StepResult
  /-- A NULL-pointer dereference, after the listed actions were performed. -/
  | crash (actions : List Action) : StepResult
deriving DecidableEq, Repr

/-! ## Probe dispatcher (ping.c lines 516-563) -/

/-- `send_ping_probe` for probe `i` (1-indexed in its batch): clone the
skeleton, stagger the clone's delay to `i × skeleton delay` unless the
delay is the `DELAY_BEST_EFFORT` sentinel, record the clone, hand it to
`pt_send_probe`.  Clone-allocation and transmission failures are outside
the model (the pure dispatcher always succeeds); the skeleton is only
read. -/
def send_ping_probe (ping_data : ping_data_t) (probe_skel : probe_t) (i : ℕ) :
    ping_data_t × probe_t :=
  let probe := probe_dup probe_skel
  let probe :=
    if probe_get_delay probe ≠ DELAY_BEST_EFFORT then
      probe_set_delay probe ((i : ℚ) * probe_get_delay probe_skel)
    else probe
  ({ ping_data with probes := ping_data.probes ++ [probe] }, probe)

/-- `send_ping_probes`: the loop `for (i = 0; i < num_probes; ++i)
send_ping_probe(…, i + 1)`, returning the updated state and the clones
handed to `pt_send_probe`, in order. -/
def send_ping_probes (ping_data : ping_data_t) (probe_skel : probe_t) :
    ℕ → ping_data_t × List probe_t
  | 0 => (ping_data, [])
  | num_probes + 1 =>
      let previous := send_ping_probes ping_data probe_skel num_probes
      let sent := send_ping_probe previous.1 probe_skel (num_probes + 1)
      (sent.1, previous.2 ++ [sent.2])

/-! ## Event handler (ping.c lines 576-701) -/

/-- The classification chain of the `PROBE_REPLY` case (lines 611-640):
the first matching test decides which outcome event is raised. -/
def raise_reply_event (dst_addr : address_t) (probe_reply : probe_reply_t) :
    ping_event_t :=
  let reply := probe_reply.reply
  if destination_reached dst_addr reply then .PING_PROBE_REPLY probe_reply
  else if destination_network_unreachable reply then .PING_DST_NET_UNREACHABLE probe_reply
  else if destination_host_unreachable reply then .PING_DST_HOST_UNREACHABLE probe_reply
  else if destination_protocol_unreachable reply then .PING_DST_PROT_UNREACHABLE probe_reply
  else if destination_port_unreachable reply then .PING_DST_PORT_UNREACHABLE probe_reply
  else if ttl_exceeded reply then .PING_TTL_EXCEEDED_TRANSIT probe_reply
  else if fragment_reassembly_time_exceeded reply then .PING_TIME_EXCEEDED_REASSEMBLY probe_reply
  else if redirect reply then .PING_REDIRECT probe_reply
  else if parameter_problem reply then .PING_PARAMETER_PROBLEM probe_reply
  else .PING_GEN_ERROR probe_reply

/-- `num_probes_to_send = (int)(options->count - data->num_replies) > 0`:
the subtraction happens on 64-bit unsigned values, the difference is then
converted to a 32-bit signed `int` and compared with `0`. -/
def need_more (count num_replies : ℕ) : Bool :=
  0 < c_int_of_u64 ((count % size_t_mod + (size_t_mod - num_replies % size_t_mod)) % size_t_mod)

/-- Line 599: `MIN((int)(options_network_get_timeout() / options->interval),
options->count)`.  The `double` quotient is truncated toward zero by the
`(int)` cast; `MIN` compares the result with the unsigned `count`.  The
model extends the cast totally (`Int.toNat`); it coincides with the C
behaviour on every nonnegative quotient below `2 ^ 31`, which covers every
run with positive durations, the only place where the cast is defined. -/
def initial_num_probes (network_timeout : ℚ) (options : ping_options_t) : ℕ :=
  min (c_trunc (network_timeout / options.interval)).toNat options.count

/-- The `else` branch of the post-`switch` dispatch check (lines 679-687),
reading through the handler's local `data` pointer: `AllProbesSent` plus
termination when nothing is in flight, `Wait` otherwise.  `data = none`
(NULL) is the dereference crash. -/
def post_else (data : Option ping_data_t) : StepResult :=
  match data with
  | none => .crash [Action.throw_event]
  | some d =>
      if d.num_probes_in_flight = 0 then
        .ok (some d)
          [Action.throw_event, Action.raise_event .PING_ALL_PROBES_SENT,
            Action.raise_terminated]
      else
        .ok (some d) [Action.throw_event, Action.raise_event .PING_WAIT]

/-- The code after the `switch` of `ping_loop_handler` (lines 671-691):
forward the event to the caller, then either dispatch
`num_probes_to_send` probes or fall into `post_else`.  `data` is the
handler's *local* pointer, evaluated by the dispatch condition when
`num_probes_to_send > 0`. -/
def post_block (options : Option ping_options_t) (data : Option ping_data_t)
    (probe_skel : probe_t) (num_probes_to_send : ℕ) : StepResult :=
  if 0 < num_probes_to_send then
    match data, options with
    | some d, some opts =>
        if size_t_add d.num_replies d.num_probes_in_flight ≠ opts.count then
          let sent := send_ping_probes d probe_skel num_probes_to_send
          .ok (some { sent.1 with
                num_probes_in_flight :=
                  size_t_add sent.1.num_probes_in_flight num_probes_to_send })
            (Action.throw_event :: sent.2.map Action.send_probe)
        else
          post_else (some d)
    | _, _ => .crash [Action.throw_event]
  else
    post_else data

/-- Prepend an action performed inside the `switch` (a `pt_raise_event`)
to the actions of the rest of the invocation. -/
def prepend_action (a : Action) : StepResult → StepResult
  | .ok pdata actions => .ok pdata (a :: actions)
  | .failure actions => .failure (a :: actions)
  | .crash actions => .crash (a :: actions)

/-- `ping_loop_handler` as a pure step function.  `network_timeout` models
`options_network_get_timeout()`.  Note that in the `ALGORITHM_TERMINATED`
and unrecognised-event cases the local `data` pointer is still NULL when
the post-`switch` code runs. -/
def ping_loop_handler (network_timeout : ℚ) (options : Option ping_options_t)
    (pdata : Option ping_data_t) (probe_skel : probe_t) : event_t → StepResult
  | .ALGORITHM_INIT =>
      match options with
      | none => .failure [Action.raise_error]
      | some opts =>
          let data := ping_data_create
          let num_probes_to_send := initial_num_probes network_timeout opts
          post_block options (some data) probe_skel num_probes_to_send
  | .PROBE_REPLY probe_reply =>
      match pdata, options with
      | some d, some opts =>
          let data :=
            { d with num_replies := size_t_succ d.num_replies
                     num_probes_in_flight := size_t_pred d.num_probes_in_flight }
          let raised := raise_reply_event opts.dst_addr probe_reply
          let num_probes_to_send :=
            if need_more opts.count data.num_replies then 1 else 0
          prepend_action (Action.raise_event raised)
            (post_block options (some data) probe_skel num_probes_to_send)
      | _, _ => .crash []
  | .PROBE_TIMEOUT =>
      match pdata, options with
      | some d, some opts =>
          let data :=
            { d with num_replies := size_t_succ d.num_replies
                     num_losses := size_t_succ d.num_losses
                     num_probes_in_flight := size_t_pred d.num_probes_in_flight }
          let num_probes_to_send :=
            if need_more opts.count data.num_replies then 1 else 0
          prepend_action (Action.raise_event .PING_TIMEOUT)
            (post_block options (some data) probe_skel num_probes_to_send)
      | _, _ => .crash []
  | .ALGORITHM_TERMINATED =>
      -- `ping_data_free(*pdata); *pdata = NULL;` — the local `data` stays
      -- NULL, so the post-`switch` code dereferences it.
      post_block options none probe_skel 0
  | .ALGORITHM_ERROR => .failure [Action.raise_error]
  | .OTHER_EVENT _ =>
      -- `default: break;` — the local `data` stays NULL, so the
      -- post-`switch` code dereferences it after forwarding the event.
      post_block options none probe_skel 0

/-! ## The caller's handler and whole-trace execution -/

def delay_get (probe reply : probe_t) : ℚ :=
  probe_get_recv_time reply - probe_get_sending_time probe

/-- The default upstream handler `ping_handler` (lines 373-502): only its
effect on the algorithm's data is modelled — on `PING_PROBE_REPLY` it
stores the measured RTT into `rtt_results` (lines 400-403); every other
case only prints. -/
def ping_handler (ping_data : ping_data_t) : ping_event_t → ping_data_t
  | .PING_PROBE_REPLY pr =>
      let delay := delay_get pr.probe pr.reply
      { ping_data with rtt_results := ping_data.rtt_results ++ [delay] }
  | _ => ping_data

/-- Let the caller's `ping_handler` consume the outcome events raised
during one invocation, in order. -/
def process_raised (ping_data : ping_data_t) (actions : List Action) : ping_data_t :=
  actions.foldl
    (fun d a => match a with
      | .raise_event e => ping_handler d e
      | _ => d)
    ping_data

/-- The observable history of one algorithm instance. -/
structure TraceState where
  pdata : Option ping_data_t
  /-- Actions of each handler invocation, in delivery order. -/
  steps : List (List Action)
  terminated : Bool
  crashed : Bool
  errored : Bool
deriving DecidableEq, Repr

def initial_trace_state : TraceState :=
  { pdata := none, steps := [], terminated := false, crashed := false, errored := false }

/-- Deliver one framework event: run `ping_loop_handler`, then let the
caller's `ping_handler` consume the raised outcome events.  A crashed
instance stays crashed. -/
def trace_step (network_timeout : ℚ) (options : Option ping_options_t)
    (probe_skel : probe_t) (st : TraceState) (ev : event_t) : TraceState :=
  if st.crashed then st else
  match ping_loop_handler network_timeout options st.pdata probe_skel ev with
  | .ok pdata actions =>
      { pdata := pdata.map (fun d => process_raised d actions)
        steps := st.steps ++ [actions]
        terminated := st.terminated || actions.contains Action.raise_terminated
        crashed := false
        errored := st.errored }
  | .failure actions =>
      { st with steps := st.steps ++ [actions], errored := true }
  | .crash actions =>
      { st with steps := st.steps ++ [actions], crashed := true }

/-- Deliver a list of framework events from the given state. -/
def run_from (network_timeout : ℚ) (options : Option ping_options_t)
    (probe_skel : probe_t) (st : TraceState) (events : List event_t) : TraceState :=
  events.foldl (trace_step network_timeout options probe_skel) st

/-- Deliver a list of framework events to a fresh instance. -/
def run_trace (network_timeout : ℚ) (options : Option ping_options_t)
    (probe_skel : probe_t) (events : List event_t) : TraceState :=
  run_from network_timeout options probe_skel initial_trace_state events

/-- Framework delivery contract for one event: the instance is alive
and, for a reply or timeout, some probe is actually in flight. -/
def delivery_ok (st : TraceState) (ev : event_t) : Bool :=
  (!st.terminated && !st.crashed && !st.errored) &&
  (match ev, st.pdata with
   | .PROBE_REPLY _, some d => decide (0 < d.num_probes_in_flight)
   | .PROBE_TIMEOUT, some d => decide (0 < d.num_probes_in_flight)
   | _, _ => false)

/-- Well-formed continuation of a run: every further event respects
`delivery_ok` at its delivery point. -/
def wf_from (network_timeout : ℚ) (options : Option ping_options_t)
    (probe_skel : probe_t) (st : TraceState) : List event_t → Bool
  | [] => true
  | ev :: events =>
      delivery_ok st ev &&
      wf_from network_timeout options probe_skel
        (trace_step network_timeout options probe_skel st ev) events

/-- Well-formed event trace for one instance: `ALGORITHM_INIT` first, then
replies and timeouts delivered while the instance is alive and has probes
in flight. -/
def wf_trace (network_timeout : ℚ) (options : Option ping_options_t)
    (probe_skel : probe_t) : List event_t → Bool
  | .ALGORITHM_INIT :: events =>
      wf_from network_timeout options probe_skel
        (trace_step network_timeout options probe_skel initial_trace_state .ALGORITHM_INIT)
        events
  | _ => false

/-- The options a run can actually be configured with: `count` fits the C
`unsigned int` that stores it and the probing interval is positive. -/
def valid_options (options : ping_options_t) : Prop :=
  options.count < 2 ^ 32 ∧ 0 < options.interval

instance (options : ping_options_t) : Decidable (valid_options options) := by
  unfold valid_options; infer_instance

/-! ## Helper lemmas -/

/-- Number of `pt_send_probe` calls among a list of actions. -/
def count_sends (actions : List Action) : ℕ :=
  actions.countP fun a => match a with | .send_probe _ => true | _ => false

/-- With the local `data` and the options both non-NULL, the post-`switch`
code always exits normally. -/
lemma post_block_some (options : ping_options_t) (d : ping_data_t)
    (probe_skel : probe_t) (num_probes_to_send : ℕ) :
    ∃ pdata actions,
      post_block (some options) (some d) probe_skel num_probes_to_send =
        .ok pdata actions := by
  simp only [post_block, post_else]
  split_ifs <;> exact ⟨_, _, rfl⟩

/-! ## Concrete demonstration inputs for witnesses -/

def demo_dst : address_t := [10, 0, 0, 1]

def demo_skel : probe_t :=
  { version := none, ty := none, code := none, src_ip := none
    delay := 1 / 2, sending_time := 0, recv_time := 0 }

def demo_options : ping_options_t :=
  { count := 2, dst_addr := demo_dst, interval := 1, max_ttl := 64
    show_timestamp := false, is_quiet := false, do_resolv := true }

def demo1_options : ping_options_t :=
  { demo_options with count := 1 }

/-- A reply from the destination itself, carrying an ICMP redirect type:
classification would not call it a plain reply. -/
def demo_reply_from_dst : probe_t :=
  { version := some 4, ty := some ICMP_REDIRECT, code := some ICMP_REDIRECT_NET
    src_ip := some demo_dst, delay := 0, sending_time := 0, recv_time := 0 }

def demo_pr_from_dst : probe_reply_t :=
  { probe := { demo_skel with sending_time := 1 }
    reply := { demo_reply_from_dst with recv_time := 3 / 2 } }

/-- An IPv4 time-exceeded reply from an intermediate router. -/
def demo_reply_ttl : probe_t :=
  { version := some 4, ty := some ICMP_TIMXCEED, code := some ICMP_TIMXCEED_INTRANS
    src_ip := some [9, 9, 9, 9], delay := 0, sending_time := 0, recv_time := 0 }

def demo_pr_ttl : probe_reply_t :=
  { probe := demo_skel, reply := demo_reply_ttl }

/-- An IPv4 reply with type `ICMP_UNREACH`, code `ICMP_UNREACH_HOST`. -/
def demo_pr_unreach_host : probe_reply_t :=
  { probe := demo_skel
    reply := { version := some 4, ty := some ICMP_UNREACH, code := some ICMP_UNREACH_HOST
               src_ip := some [9, 9, 9, 9], delay := 0, sending_time := 0, recv_time := 0 } }

/-- An IPv4 reply with type `ICMP_UNREACH`, code `ICMP_UNREACH_NET`. -/
def demo_pr_unreach_net : probe_reply_t :=
  { probe := demo_skel
    reply := { version := some 4, ty := some ICMP_UNREACH, code := some ICMP_UNREACH_NET
               src_ip := some [9, 9, 9, 9], delay := 0, sending_time := 0, recv_time := 0 } }

/-- An IPv6 reply with type `ICMP6_PARAM_PROB`, code
`ICMP6_PARAMPROB_NEXTHEADER`. -/
def demo_pr_nextheader : probe_reply_t :=
  { probe := demo_skel
    reply := { version := some 6, ty := some ICMP6_PARAM_PROB
               code := some ICMP6_PARAMPROB_NEXTHEADER
               src_ip := some [0, 1, 2, 3], delay := 0, sending_time := 0, recv_time := 0 } }

/-! ## Claim C1 -/

/-- Claim C1: whenever a reply's extracted source address equals the
configured destination, the handler's `PROBE_REPLY` case raises
`PING_PROBE_REPLY` as its first action, for arbitrary `version`, `type`
and `code` fields — the destination match is the first test of the
classification chain. -/
theorem destination_match_overrides_classification
    (network_timeout : ℚ) (options : ping_options_t) (d : ping_data_t)
    (probe_skel : probe_t) (pr : probe_reply_t)
    (hdst : destination_reached options.dst_addr pr.reply = true) :
    ∃ pdata actions,
      ping_loop_handler network_timeout (some options) (some d) probe_skel
          (.PROBE_REPLY pr) =
        .ok pdata (Action.raise_event (.PING_PROBE_REPLY pr) :: actions) := by
  have hraise : raise_reply_event options.dst_addr pr = .PING_PROBE_REPLY pr := by
    simp [raise_reply_event, hdst]
  obtain ⟨pdata, actions, heq⟩ :=
    post_block_some options
      { d with num_replies := size_t_succ d.num_replies
               num_probes_in_flight := size_t_pred d.num_probes_in_flight }
      probe_skel
      (if need_more options.count (size_t_succ d.num_replies) then 1 else 0)
  refine ⟨pdata, actions, ?_⟩
  simp only [ping_loop_handler]
  rw [hraise, heq]
  rfl

/-- Witness for C1: scenario S6 — a reply from the destination carrying an
ICMP `REDIRECT` type is still reported as `PING_PROBE_REPLY`. -/
theorem destination_match_overrides_classification_witness :
    destination_reached demo_options.dst_addr demo_pr_from_dst.reply = true ∧
    ∃ pdata actions,
      ping_loop_handler 5 (some demo_options) (some ping_data_create) demo_skel
          (.PROBE_REPLY demo_pr_from_dst) =
        .ok pdata (Action.raise_event (.PING_PROBE_REPLY demo_pr_from_dst) :: actions) :=
  ⟨by decide,
   destination_match_overrides_classification 5 demo_options ping_data_create
     demo_skel demo_pr_from_dst (by decide)⟩

/-! ## Claim C2 -/

/-- Claim C2: for an IPv4 reply that does not match the destination, the
classification chain maps `(ICMP_UNREACH, ICMP_UNREACH_HOST)` to the
network-unreachable outcome and `(ICMP_UNREACH, ICMP_UNREACH_NET)` to the
host-unreachable outcome — the swapped mapping recorded in the spec's
table. -/
theorem ipv4_unreachable_mapping_swapped
    (dst_addr : address_t) (pr : probe_reply_t)
    (hdst : destination_reached dst_addr pr.reply = false)
    (hver : pr.reply.version = some 4)
    (hty : pr.reply.ty = some ICMP_UNREACH) :
    (pr.reply.code = some ICMP_UNREACH_HOST →
        raise_reply_event dst_addr pr = .PING_DST_NET_UNREACHABLE pr) ∧
    (pr.reply.code = some ICMP_UNREACH_NET →
        raise_reply_event dst_addr pr = .PING_DST_HOST_UNREACHABLE pr) := by
  constructor
  · intro hcode
    simp [raise_reply_event, destination_network_unreachable, hdst, hver, hty,
      hcode, ICMP_UNREACH, ICMP_UNREACH_HOST]
  · intro hcode
    simp [raise_reply_event, destination_network_unreachable,
      destination_host_unreachable, hdst, hver, hty, hcode, ICMP_UNREACH,
      ICMP_UNREACH_HOST, ICMP_UNREACH_NET]

/-- Witness for C2 at concrete replies: code `ICMP_UNREACH_HOST` yields the
network-unreachable event, code `ICMP_UNREACH_NET` the host-unreachable
event. -/
theorem ipv4_unreachable_mapping_swapped_witness :
    (raise_reply_event demo_dst demo_pr_unreach_host =
        .PING_DST_NET_UNREACHABLE demo_pr_unreach_host) ∧
    (raise_reply_event demo_dst demo_pr_unreach_net =
        .PING_DST_HOST_UNREACHABLE demo_pr_unreach_net) :=
  ⟨(ipv4_unreachable_mapping_swapped demo_dst demo_pr_unreach_host
      (by decide) (by decide) (by decide)).1 (by decide),
   (ipv4_unreachable_mapping_swapped demo_dst demo_pr_unreach_net
      (by decide) (by decide) (by decide)).2 (by decide)⟩

/-! ## Claim C3 -/

/-- Claim C3: an IPv6 reply (version field not `4`) that does not match the
destination, with type `ICMP6_PARAM_PROB` and code
`ICMP6_PARAMPROB_NEXTHEADER`, is classified protocol-unreachable — the
protocol-unreachable test runs before the parameter-problem test — and the
handler raises `PING_DST_PROT_UNREACHABLE`, not `PING_PARAMETER_PROBLEM`,
as its first action. -/
theorem ipv6_nextheader_prot_unreachable
    (network_timeout : ℚ) (options : ping_options_t) (d : ping_data_t)
    (probe_skel : probe_t) (pr : probe_reply_t)
    (hdst : destination_reached options.dst_addr pr.reply = false)
    (hver : pr.reply.version.getD 0 ≠ 4)
    (hty : pr.reply.ty = some ICMP6_PARAM_PROB)
    (hcode : pr.reply.code = some ICMP6_PARAMPROB_NEXTHEADER) :
    raise_reply_event options.dst_addr pr = .PING_DST_PROT_UNREACHABLE pr ∧
    ∃ pdata actions,
      ping_loop_handler network_timeout (some options) (some d) probe_skel
          (.PROBE_REPLY pr) =
        .ok pdata (Action.raise_event (.PING_DST_PROT_UNREACHABLE pr) :: actions) := by
  have hraise : raise_reply_event options.dst_addr pr = .PING_DST_PROT_UNREACHABLE pr := by
    simp [raise_reply_event, destination_network_unreachable,
      destination_host_unreachable, destination_protocol_unreachable,
      hdst, hver, hty, hcode, ICMP6_DST_UNREACH, ICMP6_PARAM_PROB,
      ICMP6_PARAMPROB_NEXTHEADER]
  obtain ⟨pdata, actions, heq⟩ :=
    post_block_some options
      { d with num_replies := size_t_succ d.num_replies
               num_probes_in_flight := size_t_pred d.num_probes_in_flight }
      probe_skel
      (if need_more options.count (size_t_succ d.num_replies) then 1 else 0)
  refine ⟨hraise, pdata, actions, ?_⟩
  simp only [ping_loop_handler]
  rw [hraise, heq]
  rfl

/-- Witness for C3: scenario S3 at a concrete IPv6 reply. -/
theorem ipv6_nextheader_prot_unreachable_witness :
    raise_reply_event demo_options.dst_addr demo_pr_nextheader =
      .PING_DST_PROT_UNREACHABLE demo_pr_nextheader ∧
    ∃ pdata actions,
      ping_loop_handler 5 (some demo_options) (some ping_data_create) demo_skel
          (.PROBE_REPLY demo_pr_nextheader) =
        .ok pdata
          (Action.raise_event (.PING_DST_PROT_UNREACHABLE demo_pr_nextheader) :: actions) :=
  ipv6_nextheader_prot_unreachable 5 demo_options ping_data_create demo_skel
    demo_pr_nextheader (by decide) (by decide) (by decide) (by decide)

/-! ## Claim C6 -/

/-- Claim C6 (code bug): an event of unrecognised type is *not* silently
ignored.  The handler's `default: break` falls through to the
post-`switch` code, which first forwards the event to the caller
(`pt_algorithm_throw`) and then dereferences the local `data` pointer,
still NULL — a crash instead of a clean return, whatever the instance
state and options. -/
theorem unrecognized_event_forwards_then_crashes
    (network_timeout : ℚ) (options : Option ping_options_t)
    (pdata : Option ping_data_t) (probe_skel : probe_t) (tag : ℕ) :
    ping_loop_handler network_timeout options pdata probe_skel (.OTHER_EVENT tag) =
      .crash [Action.throw_event] := rfl

/-! ## Claim C8 -/

/-- Claim C8: a dispatch batch whose skeleton delay differs from the
`DELAY_BEST_EFFORT` sentinel assigns the `i`-th clone (1-indexed) the
scheduled delay `i × skeleton delay`; the clones are appended to the
retained probes, each built from the unchanged skeleton. -/
theorem staggered_probe_delays (ping_data : ping_data_t) (probe_skel : probe_t) (k : ℕ)
    (h : probe_get_delay probe_skel ≠ DELAY_BEST_EFFORT) :
    ((send_ping_probes ping_data probe_skel k).2.map probe_get_delay =
        (List.range k).map fun i => ((i + 1 : ℕ) : ℚ) * probe_get_delay probe_skel) ∧
    (send_ping_probes ping_data probe_skel k).1.probes =
        ping_data.probes ++ (send_ping_probes ping_data probe_skel k).2 ∧
    (send_ping_probes ping_data probe_skel k).2.length = k := by
  have hsend : ∀ (d : ping_data_t) (i : ℕ),
      send_ping_probe d probe_skel i =
        ({ d with probes := d.probes ++
            [probe_set_delay probe_skel ((i : ℚ) * probe_get_delay probe_skel)] },
         probe_set_delay probe_skel ((i : ℚ) * probe_get_delay probe_skel)) := by
    intro d i
    simp only [send_ping_probe, probe_dup]
    rw [if_pos h]
  induction k with
  | zero => simp [send_ping_probes]
  | succ n ih =>
      obtain ⟨ih1, ih2, ih3⟩ := ih
      have hstep : send_ping_probes ping_data probe_skel (n + 1) =
          ({ (send_ping_probes ping_data probe_skel n).1 with
              probes := (send_ping_probes ping_data probe_skel n).1.probes ++
                [probe_set_delay probe_skel
                  (((n + 1 : ℕ) : ℚ) * probe_get_delay probe_skel)] },
           (send_ping_probes ping_data probe_skel n).2 ++
             [probe_set_delay probe_skel
               (((n + 1 : ℕ) : ℚ) * probe_get_delay probe_skel)]) := by
        simp only [send_ping_probes]
        rw [hsend]
      rw [hstep]
      refine ⟨?_, ?_, ?_⟩
      · show ((send_ping_probes ping_data probe_skel n).2 ++
            [probe_set_delay probe_skel
              (((n + 1 : ℕ) : ℚ) * probe_get_delay probe_skel)]).map probe_get_delay = _
        rw [List.map_append, ih1, List.range_succ, List.map_append]
        simp [probe_get_delay, probe_set_delay]
      · show (send_ping_probes ping_data probe_skel n).1.probes ++ _ = _
        rw [ih2, List.append_assoc]
      · show ((send_ping_probes ping_data probe_skel n).2 ++ _).length = n + 1
        rw [List.length_append, ih3]
        rfl

/-- Witness for C8: scenario S5 — a skeleton delay of `0.5 s` and a batch
of four probes yields clone delays `0.5, 1.0, 1.5, 2.0`. -/
theorem staggered_probe_delays_witness :
    probe_get_delay demo_skel ≠ DELAY_BEST_EFFORT ∧
    ((send_ping_probes ping_data_create demo_skel 4).2.map probe_get_delay =
        (List.range 4).map fun i => ((i + 1 : ℕ) : ℚ) * probe_get_delay demo_skel) ∧
    (send_ping_probes ping_data_create demo_skel 4).1.probes =
        ping_data_create.probes ++ (send_ping_probes ping_data_create demo_skel 4).2 ∧
    (send_ping_probes ping_data_create demo_skel 4).2.length = 4 ∧
    (send_ping_probes ping_data_create demo_skel 4).2.map probe_get_delay =
        [1 / 2, 1, 3 / 2, 2] :=
  ⟨by with_unfolding_all decide,
   (staggered_probe_delays ping_data_create demo_skel 4 (by with_unfolding_all decide)).1,
   (staggered_probe_delays ping_data_create demo_skel 4 (by with_unfolding_all decide)).2.1,
   (staggered_probe_delays ping_data_create demo_skel 4 (by with_unfolding_all decide)).2.2,
   by with_unfolding_all decide⟩

/-! ## Claim C9 -/

/-- Claim C9 (code bug): the reported mean deviation is *not*
`Σ|xᵢ − mean| / n` with the exact absolute value.  The source passes each
`double` deviation to the integer `abs`, truncating it toward zero first:
on the samples `[0, 1]` (mean `1/2`, exact mean deviation `1/2`) the code
reports `0`. -/
theorem mean_deviation_truncation_bug :
    compute_mean_deviation [0, 1] = 0 ∧
    mean_deviation_spec [0, 1] = 1 / 2 ∧
    compute_mean_deviation [0, 1] ≠ mean_deviation_spec [0, 1] := by
  refine ⟨?_, ?_, ?_⟩ <;> with_unfolding_all decide

/-! ## Claim C10 -/

/-- Claim C10: the end-of-run statistics require a non-empty sample list:
on an empty one the minimum and maximum computations perform the
out-of-bounds element-`0` read (`none` in the model) and the mean's divisor
is zero, while `ping_dump_statistics` guards only against a NULL
collection (`none`), not against an empty one — and a run whose only probe
times out does reach that state with an empty `rtt_results`. -/
theorem empty_rtt_statistics_unguarded :
    ping_dump_statistics 1 1 none = dump_result.stats_error ∧
    ping_dump_statistics 1 1 (some []) ≠ dump_result.stats_error ∧
    ping_dump_statistics 1 1 (some []) = .report none none 0 0 100 ∧
    compute_minimum [] = none ∧
    compute_maximum [] = none ∧
    (([] : List ℚ).length : ℚ) = 0 ∧
    (∃ d, (run_trace 5 (some demo1_options) demo_skel
          [.ALGORITHM_INIT, .PROBE_TIMEOUT]).pdata = some d ∧
        d.rtt_results = [] ∧ d.num_losses = 1 ∧ d.num_replies = 1) := by
  refine ⟨rfl, by with_unfolding_all decide, by with_unfolding_all decide, rfl, rfl,
    by norm_num, ?_⟩
  with_unfolding_all decide

/-! ## Claim C7 -/

/-- `send_ping_probe` only appends the clone to the retained probes; the
counters are untouched. -/
lemma send_ping_probe_parts (d : ping_data_t) (probe_skel : probe_t) (i : ℕ) :
    (send_ping_probe d probe_skel i).1 =
      { d with probes := d.probes ++ [(send_ping_probe d probe_skel i).2] } := rfl

/-- A dispatch batch appends exactly its clones to the retained probes and
leaves every other component of the state unchanged. -/
lemma send_ping_probes_state (d : ping_data_t) (probe_skel : probe_t) (n : ℕ) :
    (send_ping_probes d probe_skel n).1 =
      { d with probes := d.probes ++ (send_ping_probes d probe_skel n).2 } ∧
    (send_ping_probes d probe_skel n).2.length = n := by
  induction n with
  | zero =>
      refine ⟨?_, rfl⟩
      show d = { d with probes := d.probes ++ [] }
      simp
  | succ m ih =>
      obtain ⟨ih1, ih2⟩ := ih
      refine ⟨?_, ?_⟩
      · show (send_ping_probe (send_ping_probes d probe_skel m).1 probe_skel (m + 1)).1 = _
        rw [send_ping_probe_parts, ih1]
        show ({ d with
            probes := (d.probes ++ (send_ping_probes d probe_skel m).2) ++ _ } : ping_data_t) = _
        rw [List.append_assoc]
        rfl
      · show ((send_ping_probes d probe_skel m).2 ++ _).length = m + 1
        rw [List.length_append, ih2]
        rfl

lemma count_sends_cons_throw (l : List Action) :
    count_sends (Action.throw_event :: l) = count_sends l := by
  simp [count_sends]

lemma count_sends_map_send (l : List probe_t) :
    count_sends (l.map Action.send_probe) = l.length := by
  induction l with
  | nil => rfl
  | cons p l ih =>
      have hcons : count_sends (List.map Action.send_probe (p :: l)) =
          count_sends (List.map Action.send_probe l) + 1 := by
        simp [count_sends, List.countP_cons]
      rw [hcons, ih, List.length_cons]

/-- With positive durations, the source's initial-burst expression is
exactly `min ⌊timeout / interval⌋ count`. -/
lemma initial_num_probes_eq (network_timeout : ℚ) (options : ping_options_t)
    (hi : 0 < options.interval) (hnt : 0 < network_timeout) :
    initial_num_probes network_timeout options =
      min ⌊network_timeout / options.interval⌋₊ options.count := by
  have hq : (0 : ℚ) ≤ network_timeout / options.interval :=
    le_of_lt (div_pos hnt hi)
  unfold initial_num_probes c_trunc
  rw [if_pos hq, Int.floor_toNat]

/-- Claim C7: on `ALGORITHM_INIT` with valid options and a positive
framework timeout, the handler exits normally, dispatches exactly
`min(⌊framework_timeout / interval⌋, count)` probes and records that many
as in flight. -/
theorem initial_burst_size (network_timeout : ℚ) (options : ping_options_t)
    (probe_skel : probe_t)
    (hv : valid_options options) (hnt : 0 < network_timeout) :
    ∃ d actions,
      ping_loop_handler network_timeout (some options) none probe_skel .ALGORITHM_INIT =
        .ok (some d) actions ∧
      count_sends actions = min ⌊network_timeout / options.interval⌋₊ options.count ∧
      d.num_probes_in_flight = min ⌊network_timeout / options.interval⌋₊ options.count := by
  obtain ⟨hcount, hi⟩ := hv
  have hk := initial_num_probes_eq network_timeout options hi hnt
  have hkle : initial_num_probes network_timeout options ≤ options.count := by
    unfold initial_num_probes
    exact min_le_right _ _
  rcases Nat.eq_zero_or_pos (initial_num_probes network_timeout options) with hk0 | hkpos
  · refine ⟨ping_data_create,
      [Action.throw_event, Action.raise_event .PING_ALL_PROBES_SENT,
        Action.raise_terminated], ?_, ?_, ?_⟩
    · show post_block (some options) (some ping_data_create) probe_skel
          (initial_num_probes network_timeout options) = _
      rw [hk0]
      rfl
    · rw [← hk, hk0]
      rfl
    · rw [← hk, hk0]
      rfl
  · have hcount0 : size_t_add ping_data_create.num_replies
        ping_data_create.num_probes_in_flight ≠ options.count := by
      show (0 + 0) % size_t_mod ≠ options.count
      unfold size_t_mod
      omega
    have hpb : post_block (some options) (some ping_data_create) probe_skel
        (initial_num_probes network_timeout options) =
        .ok (some { (send_ping_probes ping_data_create probe_skel
                (initial_num_probes network_timeout options)).1 with
              num_probes_in_flight :=
                size_t_add (send_ping_probes ping_data_create probe_skel
                    (initial_num_probes network_timeout options)).1.num_probes_in_flight
                  (initial_num_probes network_timeout options) })
          (Action.throw_event ::
            (send_ping_probes ping_data_create probe_skel
                (initial_num_probes network_timeout options)).2.map Action.send_probe) := by
      simp only [post_block]
      rw [if_pos hkpos, if_pos hcount0]
    obtain ⟨hst, hlen⟩ :=
      send_ping_probes_state ping_data_create probe_skel
        (initial_num_probes network_timeout options)
    refine ⟨_, _, hpb, ?_, ?_⟩
    · rw [count_sends_cons_throw, count_sends_map_send, hlen, hk]
    · show size_t_add (send_ping_probes ping_data_create probe_skel
          (initial_num_probes network_timeout options)).1.num_probes_in_flight
          (initial_num_probes network_timeout options) = _
      rw [hst]
      show size_t_add 0 (initial_num_probes network_timeout options) = _
      unfold size_t_add size_t_mod
      rw [Nat.zero_add, Nat.mod_eq_of_lt (by omega), hk]

/-- Witness for C7: timeout `5 s`, interval `1 s`, count `3` dispatch
`min(5, 3) = 3` probes. -/
theorem initial_burst_size_witness :
    valid_options { demo_options with count := 3 } ∧ (0 : ℚ) < 5 ∧
    ∃ d actions,
      ping_loop_handler 5 (some { demo_options with count := 3 }) none demo_skel
          .ALGORITHM_INIT = .ok (some d) actions ∧
      count_sends actions =
        min ⌊(5 : ℚ) / ({ demo_options with count := 3 } : ping_options_t).interval⌋₊ 3 ∧
      d.num_probes_in_flight =
        min ⌊(5 : ℚ) / ({ demo_options with count := 3 } : ping_options_t).interval⌋₊ 3 :=
  ⟨⟨by norm_num, by norm_num [demo_options]⟩, by norm_num,
   initial_burst_size 5 { demo_options with count := 3 } demo_skel
     ⟨by norm_num, by norm_num [demo_options]⟩ (by norm_num)⟩

/-! ## Trace bookkeeping for claims C4 and C5 -/

def is_probe_reply : event_t → Bool
  | .PROBE_REPLY _ => true
  | _ => false

def is_probe_timeout : event_t → Bool
  | .PROBE_TIMEOUT => true
  | _ => false

/-- A reply event whose source matches the configured destination. -/
def is_dst_reply (options : ping_options_t) : event_t → Bool
  | .PROBE_REPLY pr => destination_reached options.dst_addr pr.reply
  | _ => false

/-- No probe was handed to `pt_send_probe` during the invocation. -/
def no_send (s : List Action) : Prop := ∀ p, Action.send_probe p ∉ s

/-- The invocation neither raised `PING_ALL_PROBES_SENT` nor signalled
termination. -/
def aps_term_free (s : List Action) : Prop :=
  Action.raise_event .PING_ALL_PROBES_SENT ∉ s ∧ Action.raise_terminated ∉ s

/-- A non-final invocation: no `AllProbesSent`, no termination signal, and
if it dispatched nothing it raised `PING_WAIT`. -/
def step_ok (s : List Action) : Prop :=
  aps_term_free s ∧ (no_send s → Action.raise_event .PING_WAIT ∈ s)

def steps_ok (ss : List (List Action)) : Prop := ∀ s ∈ ss, step_ok s

/-- The per-instance invariant, relative to the events consumed so far. -/
def Inv (options : ping_options_t) (events : List event_t) (st : TraceState) : Prop :=
  st.crashed = false ∧ st.errored = false ∧
  ∃ d, st.pdata = some d ∧
    d.num_replies + d.num_probes_in_flight ≤ options.count ∧
    d.num_losses ≤ d.num_replies ∧
    d.num_replies = events.countP is_probe_reply + events.countP is_probe_timeout ∧
    d.num_losses = events.countP is_probe_timeout ∧
    d.rtt_results.length = events.countP (is_dst_reply options) ∧
    ((st.terminated = false ∧ steps_ok st.steps) ∨
     (st.terminated = true ∧ d.num_probes_in_flight = 0 ∧
      ∃ pre front, st.steps = pre ++
          [front ++ [Action.raise_event .PING_ALL_PROBES_SENT, Action.raise_terminated]] ∧
        steps_ok pre ∧ aps_term_free front ∧
        no_send (front ++ [Action.raise_event .PING_ALL_PROBES_SENT, Action.raise_terminated])))

/-! ### Arithmetic helpers for the `size_t` counters -/

lemma size_t_succ_eq {n : ℕ} (h : n + 1 < size_t_mod) : size_t_succ n = n + 1 :=
  Nat.mod_eq_of_lt h

lemma size_t_pred_eq {n : ℕ} (h0 : 0 < n) (h : n < size_t_mod) :
    size_t_pred n = n - 1 := by
  unfold size_t_pred
  have hsplit : n + (size_t_mod - 1) = (n - 1) + 1 * size_t_mod := by
    unfold size_t_mod at h ⊢
    omega
  rw [hsplit, Nat.add_mul_mod_self_right, Nat.mod_eq_of_lt]
  unfold size_t_mod at h ⊢
  omega

lemma size_t_add_eq {a b : ℕ} (h : a + b < size_t_mod) : size_t_add a b = a + b :=
  Nat.mod_eq_of_lt h

/-! ### Evaluation facts about raised events and the caller's handler -/

/-- The classification chain never yields one of the flow-control events. -/
lemma raise_reply_event_ne_special (dst_addr : address_t) (pr : probe_reply_t) :
    raise_reply_event dst_addr pr ≠ .PING_ALL_PROBES_SENT ∧
    raise_reply_event dst_addr pr ≠ .PING_WAIT ∧
    raise_reply_event dst_addr pr ≠ .PING_TIMEOUT := by
  simp only [raise_reply_event]
  split_ifs <;> exact ⟨by simp, by simp, by simp⟩

/-- The caller's handler stores an RTT sample exactly when the raised
classification event is a destination-reached reply. -/
lemma ping_handler_raise_reply (d : ping_data_t) (dst_addr : address_t)
    (pr : probe_reply_t) :
    ping_handler d (raise_reply_event dst_addr pr) =
      if destination_reached dst_addr pr.reply then
        { d with rtt_results := d.rtt_results ++ [delay_get pr.probe pr.reply] }
      else d := by
  simp only [raise_reply_event]
  split_ifs <;> rfl

lemma process_raised_reply_short (d : ping_data_t) (e : ping_event_t) (p : probe_t) :
    process_raised d [Action.raise_event e, Action.throw_event, Action.send_probe p] =
      ping_handler d e := rfl

lemma process_raised_reply_aps (d : ping_data_t) (e : ping_event_t) :
    process_raised d [Action.raise_event e, Action.throw_event,
        Action.raise_event .PING_ALL_PROBES_SENT, Action.raise_terminated] =
      ping_handler d e := rfl

lemma process_raised_reply_wait (d : ping_data_t) (e : ping_event_t) :
    process_raised d [Action.raise_event e, Action.throw_event,
        Action.raise_event .PING_WAIT] =
      ping_handler d e := rfl

lemma process_raised_throw_sends (d : ping_data_t) (l : List probe_t) :
    process_raised d (Action.throw_event :: l.map Action.send_probe) = d := by
  show process_raised d (l.map Action.send_probe) = d
  induction l with
  | nil => rfl
  | cons p l ih => exact ih

lemma contains_term_short (e : ping_event_t) (p : probe_t) :
    ([Action.raise_event e, Action.throw_event,
        Action.send_probe p] : List Action).contains Action.raise_terminated = false := rfl

lemma contains_term_aps (e : ping_event_t) :
    ([Action.raise_event e, Action.throw_event,
        Action.raise_event .PING_ALL_PROBES_SENT,
        Action.raise_terminated] : List Action).contains Action.raise_terminated = true := rfl

lemma contains_term_wait (e : ping_event_t) :
    ([Action.raise_event e, Action.throw_event,
        Action.raise_event .PING_WAIT] : List Action).contains
      Action.raise_terminated = false := rfl

lemma contains_term_throw_sends (l : List probe_t) :
    (Action.throw_event :: l.map Action.send_probe).contains
      Action.raise_terminated = false := by
  show (l.map Action.send_probe).contains Action.raise_terminated = false
  induction l with
  | nil => rfl
  | cons p l ih => exact ih

/-- Effect of the caller's handler on the statistics, for an arbitrary
classification result. -/
lemma ping_handler_reply_stats (d2p : ping_data_t) (dst_addr : address_t)
    (pr : probe_reply_t) :
    (ping_handler d2p (raise_reply_event dst_addr pr)).num_replies = d2p.num_replies ∧
    (ping_handler d2p (raise_reply_event dst_addr pr)).num_losses = d2p.num_losses ∧
    (ping_handler d2p (raise_reply_event dst_addr pr)).num_probes_in_flight =
      d2p.num_probes_in_flight ∧
    (ping_handler d2p (raise_reply_event dst_addr pr)).rtt_results.length =
      d2p.rtt_results.length +
        (if destination_reached dst_addr pr.reply then 1 else 0) := by
  rw [ping_handler_raise_reply]
  split_ifs <;> simp

/-- Full characterisation of one `PROBE_REPLY` delivery to a live instance:
the handler exits normally, bumps `num_replies`, keeps `num_losses`,
stores an RTT sample exactly for a destination-reached reply, and its
invocation has one of three shapes — dispatch of one probe, final
`AllProbesSent` plus termination with nothing left in flight, or
`Wait`. -/
lemma trace_step_reply_cases (network_timeout : ℚ) (options : ping_options_t)
    (probe_skel : probe_t) (st : TraceState) (d : ping_data_t) (pr : probe_reply_t)
    (hpd : st.pdata = some d) (hcr : st.crashed = false)
    (hf : 0 < d.num_probes_in_flight)
    (hb : d.num_replies + d.num_probes_in_flight ≤ options.count)
    (hc : options.count < 2 ^ 32) :
    ∃ (d2 : ping_data_t) (acts : List Action),
      trace_step network_timeout (some options) probe_skel st (.PROBE_REPLY pr) =
        { pdata := some d2, steps := st.steps ++ [acts]
          terminated := st.terminated || acts.contains Action.raise_terminated
          crashed := false, errored := st.errored } ∧
      d2.num_replies = d.num_replies + 1 ∧
      d2.num_losses = d.num_losses ∧
      d2.num_replies + d2.num_probes_in_flight ≤ options.count ∧
      d2.rtt_results.length = d.rtt_results.length +
        (if destination_reached options.dst_addr pr.reply then 1 else 0) ∧
      ((∃ p, acts = [Action.raise_event (raise_reply_event options.dst_addr pr),
          Action.throw_event, Action.send_probe p]) ∨
       (acts = [Action.raise_event (raise_reply_event options.dst_addr pr),
          Action.throw_event, Action.raise_event .PING_ALL_PROBES_SENT,
          Action.raise_terminated] ∧ d2.num_probes_in_flight = 0) ∨
       acts = [Action.raise_event (raise_reply_event options.dst_addr pr),
          Action.throw_event, Action.raise_event .PING_WAIT]) := by
  have hM1 : d.num_replies + 1 < size_t_mod := by unfold size_t_mod; omega
  have hM2 : d.num_probes_in_flight < size_t_mod := by unfold size_t_mod; omega
  have h1 : size_t_succ d.num_replies = d.num_replies + 1 := size_t_succ_eq hM1
  have h2 : size_t_pred d.num_probes_in_flight = d.num_probes_in_flight - 1 :=
    size_t_pred_eq hf hM2
  set d1 : ping_data_t :=
    { d with num_replies := size_t_succ d.num_replies
             num_probes_in_flight := size_t_pred d.num_probes_in_flight } with hd1
  have hd1r : d1.num_replies = d.num_replies + 1 := h1
  have hd1f : d1.num_probes_in_flight = d.num_probes_in_flight - 1 := h2
  set ev := raise_reply_event options.dst_addr pr with hev
  have hsum : size_t_add d1.num_replies d1.num_probes_in_flight =
      d.num_replies + d.num_probes_in_flight := by
    rw [hd1r, hd1f]
    unfold size_t_add size_t_mod
    unfold size_t_mod at hM1 hM2
    omega
  set n : ℕ := if need_more options.count (size_t_succ d.num_replies) then 1 else 0
    with hndef
  have hhandler : ping_loop_handler network_timeout (some options) st.pdata probe_skel
      (.PROBE_REPLY pr) = prepend_action (Action.raise_event ev)
        (post_block (some options) (some d1) probe_skel n) := by
    rw [hpd]
    rfl
  have htrace : ∀ (X : ping_data_t) (A : List Action),
      post_block (some options) (some d1) probe_skel n = .ok (some X) A →
      trace_step network_timeout (some options) probe_skel st (.PROBE_REPLY pr) =
        { pdata := some (process_raised X (Action.raise_event ev :: A))
          steps := st.steps ++ [Action.raise_event ev :: A]
          terminated := st.terminated ||
            (Action.raise_event ev :: A).contains Action.raise_terminated
          crashed := false, errored := st.errored } := by
    intro X A hX
    have hok : ping_loop_handler network_timeout (some options) st.pdata probe_skel
        (.PROBE_REPLY pr) = .ok (some X) (Action.raise_event ev :: A) := by
      rw [hhandler, hX]
      rfl
    simp only [trace_step, hcr, Bool.false_eq_true, if_false, hok]
    rfl
  by_cases hnm : need_more options.count (size_t_succ d.num_replies)
  · -- one more probe is wanted
    have hn1 : n = 1 := by rw [hndef, if_pos hnm]
    by_cases hfull : d.num_replies + d.num_probes_in_flight = options.count
    · -- cannot dispatch: the accounting window is full
      have hpost : post_block (some options) (some d1) probe_skel n =
          post_else (some d1) := by
        rw [hn1]
        simp only [post_block]
        rw [if_pos Nat.one_pos, if_neg (by rw [hsum]; exact fun hne => hne hfull)]
      by_cases hin0 : d1.num_probes_in_flight = 0
      · have hpe : post_else (some d1) = .ok (some d1)
            [Action.throw_event, Action.raise_event .PING_ALL_PROBES_SENT,
              Action.raise_terminated] := by
          simp only [post_else]
          rw [if_pos hin0]
        obtain ⟨hr, hl, hif, hrtt⟩ := ping_handler_reply_stats d1 options.dst_addr pr
        refine ⟨ping_handler d1 ev,
          [Action.raise_event ev, Action.throw_event,
            Action.raise_event .PING_ALL_PROBES_SENT, Action.raise_terminated],
          (htrace d1 _ (hpost.trans hpe)).trans ?_, ?_, ?_, ?_, ?_, ?_⟩
        · rw [process_raised_reply_aps]
        · rw [hr, hd1r]
        · exact hl
        · rw [hr, hif, hd1r, hd1f]
          omega
        · exact hrtt
        · exact Or.inr (Or.inl ⟨rfl, by rw [hif]; exact hin0⟩)
      · have hpe : post_else (some d1) = .ok (some d1)
            [Action.throw_event, Action.raise_event .PING_WAIT] := by
          simp only [post_else]
          rw [if_neg hin0]
        obtain ⟨hr, hl, hif, hrtt⟩ := ping_handler_reply_stats d1 options.dst_addr pr
        refine ⟨ping_handler d1 ev,
          [Action.raise_event ev, Action.throw_event, Action.raise_event .PING_WAIT],
          (htrace d1 _ (hpost.trans hpe)).trans ?_, ?_, ?_, ?_, ?_, ?_⟩
        · rw [process_raised_reply_wait]
        · rw [hr, hd1r]
        · exact hl
        · rw [hr, hif, hd1r, hd1f]
          omega
        · exact hrtt
        · exact Or.inr (Or.inr rfl)
    · -- dispatch one probe
      obtain ⟨hsent, hslen⟩ := send_ping_probes_state d1 probe_skel 1
      obtain ⟨p, hp⟩ := List.length_eq_one.mp hslen
      set d2p : ping_data_t :=
        { (send_ping_probes d1 probe_skel 1).1 with
          num_probes_in_flight :=
            size_t_add (send_ping_probes d1 probe_skel 1).1.num_probes_in_flight 1 }
        with hd2p
      have hpost : post_block (some options) (some d1) probe_skel n =
          .ok (some d2p)
            (Action.throw_event ::
              (send_ping_probes d1 probe_skel 1).2.map Action.send_probe) := by
        rw [hn1]
        simp only [post_block]
        rw [if_pos Nat.one_pos, if_pos (by rw [hsum]; exact hfull)]
      have hd2pr : d2p.num_replies = d.num_replies + 1 := by
        rw [hd2p]
        show (send_ping_probes d1 probe_skel 1).1.num_replies = _
        rw [hsent]
        exact hd1r
      have hd2pl : d2p.num_losses = d.num_losses := by
        rw [hd2p]
        show (send_ping_probes d1 probe_skel 1).1.num_losses = _
        rw [hsent]
      have hd2pf : d2p.num_probes_in_flight = d.num_probes_in_flight := by
        rw [hd2p]
        show size_t_add (send_ping_probes d1 probe_skel 1).1.num_probes_in_flight 1 = _
        rw [hsent]
        show size_t_add d1.num_probes_in_flight 1 = _
        rw [hd1f]
        unfold size_t_add size_t_mod
        unfold size_t_mod at hM2
        omega
      have hd2prtt : d2p.rtt_results = d.rtt_results := by
        rw [hd2p]
        show (send_ping_probes d1 probe_skel 1).1.rtt_results = _
        rw [hsent]
      obtain ⟨hr, hl, hif, hrtt⟩ := ping_handler_reply_stats d2p options.dst_addr pr
      have hacts : Action.raise_event ev ::
          (Action.throw_event ::
            (send_ping_probes d1 probe_skel 1).2.map Action.send_probe) =
          [Action.raise_event ev, Action.throw_event, Action.send_probe p] := by
        rw [hp]
        rfl
      refine ⟨ping_handler d2p ev,
        Action.raise_event ev :: Action.throw_event ::
          (send_ping_probes d1 probe_skel 1).2.map Action.send_probe,
        (htrace d2p _ hpost).trans ?_, ?_, ?_, ?_, ?_, ?_⟩
      · rw [hacts, process_raised_reply_short]
      · rw [hr, hd2pr]
      · rw [hl, hd2pl]
      · rw [hr, hif, hd2pr, hd2pf]
        omega
      · rw [hrtt, hd2prtt]
      · exact Or.inl ⟨p, hacts⟩
  · -- no further probe is wanted
    have hn0 : n = 0 := by rw [hndef, if_neg hnm]
    have hpost : post_block (some options) (some d1) probe_skel n =
        post_else (some d1) := by
      rw [hn0]
      simp only [post_block]
      rw [if_neg (lt_irrefl 0)]
    by_cases hin0 : d1.num_probes_in_flight = 0
    · have hpe : post_else (some d1) = .ok (some d1)
          [Action.throw_event, Action.raise_event .PING_ALL_PROBES_SENT,
            Action.raise_terminated] := by
        simp only [post_else]
        rw [if_pos hin0]
      obtain ⟨hr, hl, hif, hrtt⟩ := ping_handler_reply_stats d1 options.dst_addr pr
      refine ⟨ping_handler d1 ev,
        [Action.raise_event ev, Action.throw_event,
          Action.raise_event .PING_ALL_PROBES_SENT, Action.raise_terminated],
        (htrace d1 _ (hpost.trans hpe)).trans ?_, ?_, ?_, ?_, ?_, ?_⟩
      · rw [process_raised_reply_aps]
      · rw [hr, hd1r]
      · exact hl
      · rw [hr, hif, hd1r, hd1f]
        omega
      · exact hrtt
      · exact Or.inr (Or.inl ⟨rfl, by rw [hif]; exact hin0⟩)
    · have hpe : post_else (some d1) = .ok (some d1)
          [Action.throw_event, Action.raise_event .PING_WAIT] := by
        simp only [post_else]
        rw [if_neg hin0]
      obtain ⟨hr, hl, hif, hrtt⟩ := ping_handler_reply_stats d1 options.dst_addr pr
      refine ⟨ping_handler d1 ev,
        [Action.raise_event ev, Action.throw_event, Action.raise_event .PING_WAIT],
        (htrace d1 _ (hpost.trans hpe)).trans ?_, ?_, ?_, ?_, ?_, ?_⟩
      · rw [process_raised_reply_wait]
      · rw [hr, hd1r]
      · exact hl
      · rw [hr, hif, hd1r, hd1f]
        omega
      · exact hrtt
      · exact Or.inr (Or.inr rfl)

/-- Full characterisation of one `PROBE_TIMEOUT` delivery to a live
instance: the handler exits normally, bumps `num_replies` and
`num_losses`, stores no RTT sample, and the invocation has the same three
possible shapes as a reply. -/
lemma trace_step_timeout_cases (network_timeout : ℚ) (options : ping_options_t)
    (probe_skel : probe_t) (st : TraceState) (d : ping_data_t)
    (hpd : st.pdata = some d) (hcr : st.crashed = false)
    (hf : 0 < d.num_probes_in_flight)
    (hb : d.num_replies + d.num_probes_in_flight ≤ options.count)
    (hlb : d.num_losses ≤ d.num_replies)
    (hc : options.count < 2 ^ 32) :
    ∃ (d2 : ping_data_t) (acts : List Action),
      trace_step network_timeout (some options) probe_skel st .PROBE_TIMEOUT =
        { pdata := some d2, steps := st.steps ++ [acts]
          terminated := st.terminated || acts.contains Action.raise_terminated
          crashed := false, errored := st.errored } ∧
      d2.num_replies = d.num_replies + 1 ∧
      d2.num_losses = d.num_losses + 1 ∧
      d2.num_replies + d2.num_probes_in_flight ≤ options.count ∧
      d2.rtt_results.length = d.rtt_results.length ∧
      ((∃ p, acts = [Action.raise_event .PING_TIMEOUT,
          Action.throw_event, Action.send_probe p]) ∨
       (acts = [Action.raise_event .PING_TIMEOUT,
          Action.throw_event, Action.raise_event .PING_ALL_PROBES_SENT,
          Action.raise_terminated] ∧ d2.num_probes_in_flight = 0) ∨
       acts = [Action.raise_event .PING_TIMEOUT,
          Action.throw_event, Action.raise_event .PING_WAIT]) := by
  have hM1 : d.num_replies + 1 < size_t_mod := by unfold size_t_mod; omega
  have hM2 : d.num_probes_in_flight < size_t_mod := by unfold size_t_mod; omega
  have hM3 : d.num_losses + 1 < size_t_mod := by unfold size_t_mod; omega
  have h1 : size_t_succ d.num_replies = d.num_replies + 1 := size_t_succ_eq hM1
  have h2 : size_t_pred d.num_probes_in_flight = d.num_probes_in_flight - 1 :=
    size_t_pred_eq hf hM2
  have h3 : size_t_succ d.num_losses = d.num_losses + 1 := size_t_succ_eq hM3
  set d1 : ping_data_t :=
    { d with num_replies := size_t_succ d.num_replies
             num_losses := size_t_succ d.num_losses
             num_probes_in_flight := size_t_pred d.num_probes_in_flight } with hd1
  have hd1r : d1.num_replies = d.num_replies + 1 := h1
  have hd1l : d1.num_losses = d.num_losses + 1 := h3
  have hd1f : d1.num_probes_in_flight = d.num_probes_in_flight - 1 := h2
  have hsum : size_t_add d1.num_replies d1.num_probes_in_flight =
      d.num_replies + d.num_probes_in_flight := by
    rw [hd1r, hd1f]
    unfold size_t_add size_t_mod
    unfold size_t_mod at hM1 hM2
    omega
  set n : ℕ := if need_more options.count (size_t_succ d.num_replies) then 1 else 0
    with hndef
  have hhandler : ping_loop_handler network_timeout (some options) st.pdata probe_skel
      .PROBE_TIMEOUT = prepend_action (Action.raise_event .PING_TIMEOUT)
        (post_block (some options) (some d1) probe_skel n) := by
    rw [hpd]
    rfl
  have htrace : ∀ (X : ping_data_t) (A : List Action),
      post_block (some options) (some d1) probe_skel n = .ok (some X) A →
      trace_step network_timeout (some options) probe_skel st .PROBE_TIMEOUT =
        { pdata := some (process_raised X (Action.raise_event .PING_TIMEOUT :: A))
          steps := st.steps ++ [Action.raise_event .PING_TIMEOUT :: A]
          terminated := st.terminated ||
            (Action.raise_event .PING_TIMEOUT :: A).contains Action.raise_terminated
          crashed := false, errored := st.errored } := by
    intro X A hX
    have hok : ping_loop_handler network_timeout (some options) st.pdata probe_skel
        .PROBE_TIMEOUT = .ok (some X) (Action.raise_event .PING_TIMEOUT :: A) := by
      rw [hhandler, hX]
      rfl
    simp only [trace_step, hcr, Bool.false_eq_true, if_false, hok]
    rfl
  by_cases hnm : need_more options.count (size_t_succ d.num_replies)
  · have hn1 : n = 1 := by rw [hndef, if_pos hnm]
    by_cases hfull : d.num_replies + d.num_probes_in_flight = options.count
    · have hpost : post_block (some options) (some d1) probe_skel n =
          post_else (some d1) := by
        rw [hn1]
        simp only [post_block]
        rw [if_pos Nat.one_pos, if_neg (by rw [hsum]; exact fun hne => hne hfull)]
      by_cases hin0 : d1.num_probes_in_flight = 0
      · have hpe : post_else (some d1) = .ok (some d1)
            [Action.throw_event, Action.raise_event .PING_ALL_PROBES_SENT,
              Action.raise_terminated] := by
          simp only [post_else]
          rw [if_pos hin0]
        refine ⟨d1,
          [Action.raise_event .PING_TIMEOUT, Action.throw_event,
            Action.raise_event .PING_ALL_PROBES_SENT, Action.raise_terminated],
          (htrace d1 _ (hpost.trans hpe)).trans ?_, hd1r, hd1l, ?_, rfl,
          Or.inr (Or.inl ⟨rfl, hin0⟩)⟩
        · rw [process_raised_reply_aps]
          rfl
        · rw [hd1r, hd1f]
          omega
      · have hpe : post_else (some d1) = .ok (some d1)
            [Action.throw_event, Action.raise_event .PING_WAIT] := by
          simp only [post_else]
          rw [if_neg hin0]
        refine ⟨d1,
          [Action.raise_event .PING_TIMEOUT, Action.throw_event,
            Action.raise_event .PING_WAIT],
          (htrace d1 _ (hpost.trans hpe)).trans ?_, hd1r, hd1l, ?_, rfl,
          Or.inr (Or.inr rfl)⟩
        · rw [process_raised_reply_wait]
          rfl
        · rw [hd1r, hd1f]
          omega
    · obtain ⟨hsent, hslen⟩ := send_ping_probes_state d1 probe_skel 1
      obtain ⟨p, hp⟩ := List.length_eq_one.mp hslen
      set d2p : ping_data_t :=
        { (send_ping_probes d1 probe_skel 1).1 with
          num_probes_in_flight :=
            size_t_add (send_ping_probes d1 probe_skel 1).1.num_probes_in_flight 1 }
        with hd2p
      have hpost : post_block (some options) (some d1) probe_skel n =
          .ok (some d2p)
            (Action.throw_event ::
              (send_ping_probes d1 probe_skel 1).2.map Action.send_probe) := by
        rw [hn1]
        simp only [post_block]
        rw [if_pos Nat.one_pos, if_pos (by rw [hsum]; exact hfull)]
      have hd2pr : d2p.num_replies = d.num_replies + 1 := by
        rw [hd2p]
        show (send_ping_probes d1 probe_skel 1).1.num_replies = _
        rw [hsent]
        exact hd1r
      have hd2pl : d2p.num_losses = d.num_losses + 1 := by
        rw [hd2p]
        show (send_ping_probes d1 probe_skel 1).1.num_losses = _
        rw [hsent]
        exact hd1l
      have hd2pf : d2p.num_probes_in_flight = d.num_probes_in_flight := by
        rw [hd2p]
        show size_t_add (send_ping_probes d1 probe_skel 1).1.num_probes_in_flight 1 = _
        rw [hsent]
        show size_t_add d1.num_probes_in_flight 1 = _
        rw [hd1f]
        unfold size_t_add size_t_mod
        unfold size_t_mod at hM2
        omega
      have hd2prtt : d2p.rtt_results = d.rtt_results := by
        rw [hd2p]
        show (send_ping_probes d1 probe_skel 1).1.rtt_results = _
        rw [hsent]
      have hacts : Action.raise_event ping_event_t.PING_TIMEOUT ::
          (Action.throw_event ::
            (send_ping_probes d1 probe_skel 1).2.map Action.send_probe) =
          [Action.raise_event .PING_TIMEOUT, Action.throw_event,
            Action.send_probe p] := by
        rw [hp]
        rfl
      refine ⟨d2p,
        Action.raise_event .PING_TIMEOUT :: Action.throw_event ::
          (send_ping_probes d1 probe_skel 1).2.map Action.send_probe,
        (htrace d2p _ hpost).trans ?_, hd2pr, hd2pl, ?_, by rw [hd2prtt],
        Or.inl ⟨p, hacts⟩⟩
      · rw [hacts, process_raised_reply_short]
        rfl
      · rw [hd2pr, hd2pf]
        omega
  · have hn0 : n = 0 := by rw [hndef, if_neg hnm]
    have hpost : post_block (some options) (some d1) probe_skel n =
        post_else (some d1) := by
      rw [hn0]
      simp only [post_block]
      rw [if_neg (lt_irrefl 0)]
    by_cases hin0 : d1.num_probes_in_flight = 0
    · have hpe : post_else (some d1) = .ok (some d1)
          [Action.throw_event, Action.raise_event .PING_ALL_PROBES_SENT,
            Action.raise_terminated] := by
        simp only [post_else]
        rw [if_pos hin0]
      refine ⟨d1,
        [Action.raise_event .PING_TIMEOUT, Action.throw_event,
          Action.raise_event .PING_ALL_PROBES_SENT, Action.raise_terminated],
        (htrace d1 _ (hpost.trans hpe)).trans ?_, hd1r, hd1l, ?_, rfl,
        Or.inr (Or.inl ⟨rfl, hin0⟩)⟩
      · rw [process_raised_reply_aps]
        rfl
      · rw [hd1r, hd1f]
        omega
    · have hpe : post_else (some d1) = .ok (some d1)
          [Action.throw_event, Action.raise_event .PING_WAIT] := by
        simp only [post_else]
        rw [if_neg hin0]
      refine ⟨d1,
        [Action.raise_event .PING_TIMEOUT, Action.throw_event,
          Action.raise_event .PING_WAIT],
        (htrace d1 _ (hpost.trans hpe)).trans ?_, hd1r, hd1l, ?_, rfl,
        Or.inr (Or.inr rfl)⟩
      · rw [process_raised_reply_wait]
        rfl
      · rw [hd1r, hd1f]
        omega

/-! ### Step shapes are well behaved -/

lemma step_ok_dispatch (e : ping_event_t) (he : e ≠ .PING_ALL_PROBES_SENT) (p : probe_t) :
    step_ok [Action.raise_event e, Action.throw_event, Action.send_probe p] := by
  refine ⟨⟨?_, ?_⟩, ?_⟩
  · intro hmem
    simp only [List.mem_cons, List.not_mem_nil, or_false] at hmem
    rcases hmem with h | h | h <;> simp_all
  · intro hmem
    simp only [List.mem_cons, List.not_mem_nil, or_false] at hmem
    rcases hmem with h | h | h <;> simp_all
  · intro hns
    exact absurd (by simp : Action.send_probe p ∈
      [Action.raise_event e, Action.throw_event, Action.send_probe p]) (hns p)

lemma step_ok_wait (e : ping_event_t) (he : e ≠ .PING_ALL_PROBES_SENT) :
    step_ok [Action.raise_event e, Action.throw_event,
      Action.raise_event .PING_WAIT] := by
  refine ⟨⟨?_, ?_⟩, ?_⟩
  · intro hmem
    simp only [List.mem_cons, List.not_mem_nil, or_false] at hmem
    rcases hmem with h | h | h <;> simp_all
  · intro hmem
    simp only [List.mem_cons, List.not_mem_nil, or_false] at hmem
    rcases hmem with h | h | h <;> simp_all
  · intro hns
    simp

lemma step_ok_throw_sends (l : List probe_t) (hl : l ≠ []) :
    step_ok (Action.throw_event :: l.map Action.send_probe) := by
  refine ⟨⟨?_, ?_⟩, ?_⟩
  · intro hmem
    simp only [List.mem_cons, List.mem_map] at hmem
    rcases hmem with h | ⟨p, _, h⟩ <;> simp_all
  · intro hmem
    simp only [List.mem_cons, List.mem_map] at hmem
    rcases hmem with h | ⟨p, _, h⟩ <;> simp_all
  · intro hns
    obtain ⟨p, hp⟩ := List.exists_mem_of_ne_nil l hl
    exact absurd
      (List.mem_cons_of_mem _ (List.mem_map_of_mem Action.send_probe hp)) (hns p)

lemma aps_front_reply (e : ping_event_t) (he : e ≠ .PING_ALL_PROBES_SENT) :
    aps_term_free [Action.raise_event e, Action.throw_event] ∧
    no_send ([Action.raise_event e, Action.throw_event] ++
      [Action.raise_event .PING_ALL_PROBES_SENT, Action.raise_terminated]) := by
  refine ⟨⟨?_, ?_⟩, ?_⟩
  · intro hmem
    simp only [List.mem_cons, List.not_mem_nil, or_false] at hmem
    rcases hmem with h | h <;> simp_all
  · intro hmem
    simp only [List.mem_cons, List.not_mem_nil, or_false] at hmem
    rcases hmem with h | h <;> simp_all
  · intro p hmem
    simp only [List.cons_append, List.nil_append, List.mem_cons,
      List.not_mem_nil, or_false] at hmem
    rcases hmem with h | h | h | h <;> simp_all

lemma countP_snoc (p : event_t → Bool) (l : List event_t) (e : event_t) :
    (l ++ [e]).countP p = l.countP p + (if p e then 1 else 0) := by
  rw [List.countP_append]
  simp [List.countP_cons]

/-- `steps_ok` is preserved by appending a good step. -/
lemma steps_ok_snoc {ss : List (List Action)} {s : List Action}
    (h : steps_ok ss) (hs : step_ok s) : steps_ok (ss ++ [s]) := by
  intro x hx
  rcases List.mem_append.mp hx with h1 | h1
  · exact h x h1
  · rcases List.mem_singleton.mp h1 with rfl
    exact hs

/-! ### The invariant after `ALGORITHM_INIT` -/

lemma post_block_create_dispatch (options : ping_options_t) (probe_skel : probe_t)
    (k : ℕ) (hkpos : 0 < k) (hne : (0 : ℕ) ≠ options.count) :
    post_block (some options) (some ping_data_create) probe_skel k =
      .ok (some { (send_ping_probes ping_data_create probe_skel k).1 with
            num_probes_in_flight :=
              size_t_add (send_ping_probes ping_data_create probe_skel k).1.num_probes_in_flight
                k })
        (Action.throw_event ::
          (send_ping_probes ping_data_create probe_skel k).2.map Action.send_probe) := by
  simp only [post_block]
  rw [if_pos hkpos, if_pos (by
    show (0 + 0) % size_t_mod ≠ options.count
    unfold size_t_mod
    omega)]

lemma inv_init (network_timeout : ℚ) (options : ping_options_t) (probe_skel : probe_t)
    (hv : valid_options options) :
    Inv options [.ALGORITHM_INIT]
      (trace_step network_timeout (some options) probe_skel initial_trace_state
        .ALGORITHM_INIT) := by
  obtain ⟨hc, hi⟩ := hv
  have hkle : initial_num_probes network_timeout options ≤ options.count := by
    unfold initial_num_probes
    exact min_le_right _ _
  rcases Nat.eq_zero_or_pos (initial_num_probes network_timeout options) with hk0 | hkpos
  · -- zero-probe burst: immediate AllProbesSent and termination
    have hh : ping_loop_handler network_timeout (some options)
        none probe_skel .ALGORITHM_INIT =
        .ok (some ping_data_create)
          [Action.throw_event, Action.raise_event .PING_ALL_PROBES_SENT,
            Action.raise_terminated] := by
      show post_block (some options) (some ping_data_create) probe_skel
          (initial_num_probes network_timeout options) = _
      rw [hk0]
      rfl
    have ht : trace_step network_timeout (some options) probe_skel
        initial_trace_state .ALGORITHM_INIT =
        { pdata := some ping_data_create
          steps := [[Action.throw_event, Action.raise_event .PING_ALL_PROBES_SENT,
            Action.raise_terminated]]
          terminated := true, crashed := false, errored := false } := by
      simp only [trace_step, initial_trace_state, Bool.false_eq_true, if_false, hh]
      rfl
    rw [ht]
    refine ⟨rfl, rfl, ping_data_create, rfl, by simp [ping_data_create], le_refl _,
      rfl, rfl, rfl, Or.inr ⟨rfl, rfl, [], [Action.throw_event], rfl, ?_, ⟨?_, ?_⟩, ?_⟩⟩
    · intro s hs
      simp at hs
    · intro hmem
      simp only [List.mem_cons, List.not_mem_nil, or_false] at hmem
      simp_all
    · intro hmem
      simp only [List.mem_cons, List.not_mem_nil, or_false] at hmem
      simp_all
    · intro p hmem
      simp only [List.cons_append, List.nil_append, List.mem_cons,
        List.not_mem_nil, or_false] at hmem
      rcases hmem with h | h | h <;> simp_all
  · -- dispatch of the initial burst
    have hne : (0 : ℕ) ≠ options.count := by omega
    obtain ⟨hsent, hslen⟩ :=
      send_ping_probes_state ping_data_create probe_skel
        (initial_num_probes network_timeout options)
    set k := initial_num_probes network_timeout options with hkdef
    set sent := send_ping_probes ping_data_create probe_skel k with hsentdef
    set d2p : ping_data_t :=
      { sent.1 with num_probes_in_flight := size_t_add sent.1.num_probes_in_flight k }
      with hd2p
    have hh : ping_loop_handler network_timeout (some options)
        none probe_skel .ALGORITHM_INIT =
        .ok (some d2p) (Action.throw_event :: sent.2.map Action.send_probe) := by
      show post_block (some options) (some ping_data_create) probe_skel k = _
      exact post_block_create_dispatch options probe_skel k hkpos hne
    have ht : trace_step network_timeout (some options) probe_skel
        initial_trace_state .ALGORITHM_INIT =
        { pdata := some (process_raised d2p
            (Action.throw_event :: sent.2.map Action.send_probe))
          steps := [Action.throw_event :: sent.2.map Action.send_probe]
          terminated := false || (Action.throw_event ::
            sent.2.map Action.send_probe).contains Action.raise_terminated
          crashed := false, errored := false } := by
      simp only [trace_step, initial_trace_state, Bool.false_eq_true, if_false, hh]
      rfl
    rw [ht, process_raised_throw_sends, contains_term_throw_sends]
    have hd2pr : d2p.num_replies = 0 := by
      rw [hd2p]
      show sent.1.num_replies = 0
      rw [hsent]
      rfl
    have hd2pl : d2p.num_losses = 0 := by
      rw [hd2p]
      show sent.1.num_losses = 0
      rw [hsent]
      rfl
    have hd2pf : d2p.num_probes_in_flight = k := by
      rw [hd2p]
      show size_t_add sent.1.num_probes_in_flight k = k
      rw [hsent]
      show size_t_add 0 k = k
      unfold size_t_add size_t_mod
      omega
    have hd2prtt : d2p.rtt_results = [] := by
      rw [hd2p]
      show sent.1.rtt_results = []
      rw [hsent]
      rfl
    refine ⟨rfl, rfl, d2p, rfl, ?_, ?_, ?_, ?_, ?_,
      Or.inl ⟨rfl, ?_⟩⟩
    · rw [hd2pr, hd2pf]
      omega
    · rw [hd2pl, hd2pr]
    · rw [hd2pr]
      rfl
    · rw [hd2pl]
      rfl
    · rw [hd2prtt]
      rfl
    · intro s hs
      simp only [List.mem_singleton] at hs
      rcases hs with rfl
      exact step_ok_throw_sends sent.2 (by
        intro hnil
        rw [hnil] at hslen
        simp at hslen
        omega)

/-! ### Preservation of the invariant -/

lemma countP_snoc_true (p : event_t → Bool) (l : List event_t) (e : event_t)
    (he : p e = true) : (l ++ [e]).countP p = l.countP p + 1 := by
  rw [countP_snoc, he]
  rfl

lemma countP_snoc_false (p : event_t → Bool) (l : List event_t) (e : event_t)
    (he : p e = false) : (l ++ [e]).countP p = l.countP p := by
  rw [countP_snoc, he]
  rfl

lemma or_contains_false {b : Bool} (hb : b = false) {l : List Action}
    (hl : l.contains Action.raise_terminated = false) :
    (b || l.contains Action.raise_terminated) = false := by
  rw [hb, hl]
  rfl

lemma or_contains_true {b : Bool} {l : List Action}
    (hl : l.contains Action.raise_terminated = true) :
    (b || l.contains Action.raise_terminated) = true := by
  rw [hl]
  simp

lemma inv_preserved (network_timeout : ℚ) (options : ping_options_t)
    (probe_skel : probe_t) (events : List event_t) (ev : event_t) (st : TraceState)
    (hc : options.count < 2 ^ 32)
    (hInv : Inv options events st)
    (hok : delivery_ok st ev = true) :
    Inv options (events ++ [ev])
      (trace_step network_timeout (some options) probe_skel st ev) := by
  obtain ⟨hcr, herr, d, hpd, hb, hlb, hr, hl, hrtt, hbranch⟩ := hInv
  unfold delivery_ok at hok
  simp only [Bool.and_eq_true, Bool.not_eq_true'] at hok
  obtain ⟨⟨⟨ht, -⟩, -⟩, hm⟩ := hok
  have hsteps : steps_ok st.steps := by
    rcases hbranch with ⟨-, hs⟩ | ⟨habs, -⟩
    · exact hs
    · rw [ht] at habs
      simp at habs
  cases ev with
  | PROBE_REPLY pr =>
      rw [hpd] at hm
      have hf : 0 < d.num_probes_in_flight := of_decide_eq_true hm
      obtain ⟨d2, acts, heq, h2r, h2l, h2b, h2rtt, hshape⟩ :=
        trace_step_reply_cases network_timeout options probe_skel st d pr hpd hcr hf hb hc
      rw [heq]
      have hne := (raise_reply_event_ne_special options.dst_addr pr).1
      refine ⟨rfl, herr, d2, rfl, h2b, ?_, ?_, ?_, ?_, ?_⟩
      · rw [h2l, h2r]
        omega
      · rw [h2r, hr, countP_snoc_true _ _ _ rfl, countP_snoc_false _ _ _ rfl]
        omega
      · rw [h2l, hl, countP_snoc_false _ _ _ rfl]
      · rw [h2rtt, hrtt, countP_snoc]
        rfl
      · rcases hshape with ⟨p, hacts⟩ | ⟨hacts, hif0⟩ | hacts <;> subst hacts
        · exact Or.inl ⟨or_contains_false ht (contains_term_short _ _),
            steps_ok_snoc hsteps (step_ok_dispatch _ hne p)⟩
        · exact Or.inr ⟨or_contains_true (contains_term_aps _), hif0, st.steps,
            [Action.raise_event (raise_reply_event options.dst_addr pr),
              Action.throw_event], rfl, hsteps,
            (aps_front_reply _ hne).1, (aps_front_reply _ hne).2⟩
        · exact Or.inl ⟨or_contains_false ht (contains_term_wait _),
            steps_ok_snoc hsteps (step_ok_wait _ hne)⟩
  | PROBE_TIMEOUT =>
      rw [hpd] at hm
      have hf : 0 < d.num_probes_in_flight := of_decide_eq_true hm
      obtain ⟨d2, acts, heq, h2r, h2l, h2b, h2rtt, hshape⟩ :=
        trace_step_timeout_cases network_timeout options probe_skel st d hpd hcr hf hb hlb hc
      rw [heq]
      have hne : (ping_event_t.PING_TIMEOUT) ≠ .PING_ALL_PROBES_SENT := by simp
      refine ⟨rfl, herr, d2, rfl, h2b, ?_, ?_, ?_, ?_, ?_⟩
      · rw [h2l, h2r]
        omega
      · rw [h2r, hr, countP_snoc_false _ _ _ rfl, countP_snoc_true _ _ _ rfl]
        omega
      · rw [h2l, hl, countP_snoc_true _ _ _ rfl]
      · rw [h2rtt, hrtt, countP_snoc_false _ _ _ rfl]
      · rcases hshape with ⟨p, hacts⟩ | ⟨hacts, hif0⟩ | hacts <;> subst hacts
        · exact Or.inl ⟨or_contains_false ht (contains_term_short _ _),
            steps_ok_snoc hsteps (step_ok_dispatch _ hne p)⟩
        · exact Or.inr ⟨or_contains_true (contains_term_aps _), hif0, st.steps,
            [Action.raise_event .PING_TIMEOUT, Action.throw_event], rfl, hsteps,
            (aps_front_reply _ hne).1, (aps_front_reply _ hne).2⟩
        · exact Or.inl ⟨or_contains_false ht (contains_term_wait _),
            steps_ok_snoc hsteps (step_ok_wait _ hne)⟩
  | ALGORITHM_INIT =>
      rw [hpd] at hm
      simp at hm
  | ALGORITHM_TERMINATED =>
      rw [hpd] at hm
      simp at hm
  | ALGORITHM_ERROR =>
      rw [hpd] at hm
      simp at hm
  | OTHER_EVENT tag =>
      rw [hpd] at hm
      simp at hm

/-- The invariant holds after any well-formed continuation. -/
lemma inv_run (network_timeout : ℚ) (options : ping_options_t) (probe_skel : probe_t)
    (hc : options.count < 2 ^ 32) :
    ∀ (events past : List event_t) (st : TraceState),
      Inv options past st →
      wf_from network_timeout (some options) probe_skel st events = true →
      Inv options (past ++ events)
        (run_from network_timeout (some options) probe_skel st events) := by
  intro events
  induction events with
  | nil =>
      intro past st h _
      simpa using h
  | cons ev evs ih =>
      intro past st h hwf
      simp only [wf_from, Bool.and_eq_true] at hwf
      obtain ⟨hok, hrest⟩ := hwf
      have hstep := inv_preserved network_timeout options probe_skel past ev st hc h hok
      have hrec := ih (past ++ [ev]) _ hstep hrest
      have hlist : (past ++ [ev]) ++ evs = past ++ ev :: evs := by
        rw [List.append_assoc]
        rfl
      rw [hlist] at hrec
      exact hrec

/-! ## Claim C4 -/

/-- Claim C4: in every well-formed event trace that reaches
framework-termination, the whole run performs exactly one
`PING_ALL_PROBES_SENT` raise — it happens in the final handler invocation,
which dispatches nothing, leaves `num_probes_in_flight = 0`, and raises
the termination signal immediately after `PING_ALL_PROBES_SENT`; every
earlier invocation raises no `PING_ALL_PROBES_SENT`, does not terminate,
and raises `PING_WAIT` whenever it dispatches no probe. -/
theorem all_probes_sent_exactly_once_before_termination
    (network_timeout : ℚ) (options : ping_options_t) (probe_skel : probe_t)
    (events : List event_t)
    (hv : valid_options options)
    (hwf : wf_trace network_timeout (some options) probe_skel events = true)
    (hterm : (run_trace network_timeout (some options) probe_skel events).terminated
      = true) :
    ∃ d pre front,
      (run_trace network_timeout (some options) probe_skel events).pdata = some d ∧
      d.num_probes_in_flight = 0 ∧
      (run_trace network_timeout (some options) probe_skel events).steps =
        pre ++ [front ++ [Action.raise_event .PING_ALL_PROBES_SENT,
          Action.raise_terminated]] ∧
      steps_ok pre ∧ aps_term_free front ∧
      no_send (front ++ [Action.raise_event .PING_ALL_PROBES_SENT,
        Action.raise_terminated]) := by
  match events with
  | [] => simp [wf_trace] at hwf
  | .ALGORITHM_INIT :: rest =>
      have h0 := inv_init network_timeout options probe_skel hv
      have h1 := inv_run network_timeout options probe_skel hv.1 rest
        [.ALGORITHM_INIT]
        (trace_step network_timeout (some options) probe_skel initial_trace_state
          .ALGORITHM_INIT)
        h0 hwf
      obtain ⟨-, -, d, hpd, -, -, -, -, -, hbranch⟩ := h1
      rcases hbranch with ⟨hf, -⟩ | ⟨-, hif0, pre, front, hsteps, hpre, hfront, hns⟩
      · rw [show (run_trace network_timeout (some options) probe_skel
            (.ALGORITHM_INIT :: rest)) = run_from network_timeout (some options)
            probe_skel (trace_step network_timeout (some options) probe_skel
              initial_trace_state .ALGORITHM_INIT) rest from rfl, hf] at hterm
        simp at hterm
      · exact ⟨d, pre, front, hpd, hif0, hsteps, hpre, hfront, hns⟩
  | .PROBE_REPLY pr :: rest => simp [wf_trace] at hwf
  | .PROBE_TIMEOUT :: rest => simp [wf_trace] at hwf
  | .ALGORITHM_TERMINATED :: rest => simp [wf_trace] at hwf
  | .ALGORITHM_ERROR :: rest => simp [wf_trace] at hwf
  | .OTHER_EVENT tag :: rest => simp [wf_trace] at hwf

/-- Witness for C4: `count = 1`, one matching reply — the second invocation
ends the run with `PING_ALL_PROBES_SENT` immediately followed by the
termination signal. -/
theorem all_probes_sent_exactly_once_before_termination_witness :
    valid_options demo1_options ∧
    wf_trace 5 (some demo1_options) demo_skel
      [.ALGORITHM_INIT, .PROBE_REPLY demo_pr_from_dst] = true ∧
    (run_trace 5 (some demo1_options) demo_skel
      [.ALGORITHM_INIT, .PROBE_REPLY demo_pr_from_dst]).terminated = true ∧
    ∃ d pre front,
      (run_trace 5 (some demo1_options) demo_skel
        [.ALGORITHM_INIT, .PROBE_REPLY demo_pr_from_dst]).pdata = some d ∧
      d.num_probes_in_flight = 0 ∧
      (run_trace 5 (some demo1_options) demo_skel
        [.ALGORITHM_INIT, .PROBE_REPLY demo_pr_from_dst]).steps =
        pre ++ [front ++ [Action.raise_event .PING_ALL_PROBES_SENT,
          Action.raise_terminated]] ∧
      steps_ok pre ∧ aps_term_free front ∧
      no_send (front ++ [Action.raise_event .PING_ALL_PROBES_SENT,
        Action.raise_terminated]) :=
  ⟨⟨by norm_num [demo1_options, demo_options], by norm_num [demo1_options, demo_options]⟩,
   by with_unfolding_all decide,
   by with_unfolding_all decide,
   all_probes_sent_exactly_once_before_termination 5 demo1_options demo_skel
     [.ALGORITHM_INIT, .PROBE_REPLY demo_pr_from_dst]
     ⟨by norm_num [demo1_options, demo_options], by norm_num [demo1_options, demo_options]⟩
     (by with_unfolding_all decide) (by with_unfolding_all decide)⟩

/-! ## Claim C5 -/

lemma countP_dst_le_reply (options : ping_options_t) (l : List event_t) :
    l.countP (is_dst_reply options) ≤ l.countP is_probe_reply := by
  induction l with
  | nil => simp
  | cons e l ih =>
      rw [List.countP_cons, List.countP_cons]
      have hle : (if is_dst_reply options e then 1 else 0) ≤
          (if is_probe_reply e then 1 else 0) := by
        cases e
        case PROBE_REPLY pr =>
          simp only [is_dst_reply, is_probe_reply]
          split_ifs <;> simp
        all_goals simp [is_dst_reply, is_probe_reply]
      omega

/-- Claim C5 counterexample: a reply that does not come from the
destination bumps `num_replies` without a timeout and stores no RTT
sample, so after the well-formed trace `[init, reply-from-router]` the
invariant `|rtt_samples| = num_replies − num_losses` fails: `0 ≠ 1`. -/
theorem rtt_sample_count_counterexample :
    wf_trace 5 (some demo_options) demo_skel
      [.ALGORITHM_INIT, .PROBE_REPLY demo_pr_ttl] = true ∧
    ((run_trace 5 (some demo_options) demo_skel
        [.ALGORITHM_INIT, .PROBE_REPLY demo_pr_ttl]).pdata.map
      fun d => (d.rtt_results.length, d.num_replies, d.num_losses)) =
        some (0, 1, 0) ∧
    (0 : ℕ) ≠ 1 - 0 := by
  refine ⟨by with_unfolding_all decide, by with_unfolding_all decide, by decide⟩

/-- Claim C5 (amended): at every handler exit of a well-formed trace, the
number of stored RTT samples equals the number of *destination-reached*
replies; `num_replies − num_losses` counts all replies, so the sample
count is bounded by it, with equality only when every non-timeout reply
came from the destination. -/
theorem rtt_sample_count_destination_replies
    (network_timeout : ℚ) (options : ping_options_t) (probe_skel : probe_t)
    (events : List event_t)
    (hv : valid_options options)
    (hwf : wf_trace network_timeout (some options) probe_skel events = true) :
    ∃ d,
      (run_trace network_timeout (some options) probe_skel events).pdata = some d ∧
      d.rtt_results.length = events.countP (is_dst_reply options) ∧
      d.num_replies - d.num_losses = events.countP is_probe_reply ∧
      d.rtt_results.length ≤ d.num_replies - d.num_losses := by
  match events with
  | [] => simp [wf_trace] at hwf
  | .ALGORITHM_INIT :: rest =>
      have h0 := inv_init network_timeout options probe_skel hv
      have h1 := inv_run network_timeout options probe_skel hv.1 rest
        [.ALGORITHM_INIT]
        (trace_step network_timeout (some options) probe_skel initial_trace_state
          .ALGORITHM_INIT)
        h0 hwf
      obtain ⟨-, -, d, hpd, -, hlb, hr, hl, hrtt, -⟩ := h1
      simp only [List.singleton_append] at hr hl hrtt
      refine ⟨d, hpd, hrtt, ?_, ?_⟩
      · rw [hr, hl]
        omega
      · rw [hrtt, hr, hl]
        have hle := countP_dst_le_reply options (event_t.ALGORITHM_INIT :: rest)
        omega
  | .PROBE_REPLY pr :: rest => simp [wf_trace] at hwf
  | .PROBE_TIMEOUT :: rest => simp [wf_trace] at hwf
  | .ALGORITHM_TERMINATED :: rest => simp [wf_trace] at hwf
  | .ALGORITHM_ERROR :: rest => simp [wf_trace] at hwf
  | .OTHER_EVENT tag :: rest => simp [wf_trace] at hwf

/-- Witness for C5 (amended): one destination reply and one
router-classified reply give one stored sample out of two replies. -/
theorem rtt_sample_count_destination_replies_witness :
    valid_options demo_options ∧
    wf_trace 5 (some demo_options) demo_skel
      [.ALGORITHM_INIT, .PROBE_REPLY demo_pr_from_dst,
        .PROBE_REPLY demo_pr_ttl] = true ∧
    ∃ d,
      (run_trace 5 (some demo_options) demo_skel
        [.ALGORITHM_INIT, .PROBE_REPLY demo_pr_from_dst,
          .PROBE_REPLY demo_pr_ttl]).pdata = some d ∧
      d.rtt_results.length =
        ([.ALGORITHM_INIT, .PROBE_REPLY demo_pr_from_dst,
          .PROBE_REPLY demo_pr_ttl] : List event_t).countP
            (is_dst_reply demo_options) ∧
      d.num_replies - d.num_losses =
        ([.ALGORITHM_INIT, .PROBE_REPLY demo_pr_from_dst,
          .PROBE_REPLY demo_pr_ttl] : List event_t).countP is_probe_reply ∧
      d.rtt_results.length ≤ d.num_replies - d.num_losses :=
  ⟨⟨by norm_num [demo_options], by norm_num [demo_options]⟩,
   by with_unfolding_all decide,
   rtt_sample_count_destination_replies 5 demo_options demo_skel
     [.ALGORITHM_INIT, .PROBE_REPLY demo_pr_from_dst, .PROBE_REPLY demo_pr_ttl]
     ⟨by norm_num [demo_options], by norm_num [demo_options]⟩
     (by with_unfolding_all decide)⟩

end Ping
